import Mathlib

/-!
# Verification of rs-sql-indent: lexer and formatting engines

Shallow embedding of the SQL re-formatter:
* `src/token.rs`   — keyword table, classification predicates, token model
* `src/lexer.rs`   — byte-level tokenizer (modelled on byte lists)
* `src/formatter/mod.rs`, `basic.rs`, `aligned.rs`, `dataops.rs`
                   — shared driver and the layout engines (modelled on
                     char-level tokens, as Rust `String`/`char` operations)

The lexer is embedded at byte level (`List Nat`, one entry per input byte)
because the Rust code dispatches on bytes; the formatter is embedded at char
level because the Rust formatter manipulates `String`s via `char`-based
operations (`trim_end`, `lines`, `push`).
-/

namespace RsSqlIndent

/-! ## Keyword model (src/token.rs) -/

inductive KeywordKind where
  | Select | From | Where | And | Or | Not | In | Between | Like | Is
  | Null | As | On | Join | Having | Limit | Offset | Union | Intersect
  | Except | Insert | Into | Values | Update | Set | Delete | Distinct
  | All | Asc | Desc | Case | When | Then | Else | End | Exists | Any
  | With | Recursive | Returning | Using | Natural | Fetch | For | Window
  | Over | Partition | Rows | Range | Unbounded | Preceding | Following
  | Current | Row
  | Order | Group | Left | Right | Inner | Outer | Full | Cross
  | Create | Alter | Drop | Table | Index | View | Column | Add | Primary
  | Key | Foreign | References | Unique | Default | Check | Constraint
  | Cascade | Restrict | If | Temporary | Temp | Schema | Database
  | Sequence | Trigger | Function | Procedure | Type | Enum | Grant
  | Revoke | Truncate | Rename | Replace | Comment
  | True | False | Begin | Commit | Rollback | Savepoint | Transaction
  | Lock | Unlock
  | OrderBy | GroupBy | LeftJoin | RightJoin | InnerJoin | OuterJoin
  | FullJoin | CrossJoin | UnionAll | PrimaryKey | ForeignKey | IfExists
  | IfNotExists | RowsBetween | RangeBetween
  deriving DecidableEq, Repr

namespace KeywordKind

def as_str : KeywordKind → String
  | .Select => "SELECT" | .From => "FROM" | .Where => "WHERE" | .And => "AND"
  | .Or => "OR" | .Not => "NOT" | .In => "IN" | .Between => "BETWEEN"
  | .Like => "LIKE" | .Is => "IS" | .Null => "NULL" | .As => "AS" | .On => "ON"
  | .Join => "JOIN" | .Having => "HAVING" | .Limit => "LIMIT"
  | .Offset => "OFFSET" | .Union => "UNION" | .Intersect => "INTERSECT"
  | .Except => "EXCEPT" | .Insert => "INSERT" | .Into => "INTO"
  | .Values => "VALUES" | .Update => "UPDATE" | .Set => "SET"
  | .Delete => "DELETE" | .Distinct => "DISTINCT" | .All => "ALL"
  | .Asc => "ASC" | .Desc => "DESC" | .Case => "CASE" | .When => "WHEN"
  | .Then => "THEN" | .Else => "ELSE" | .End => "END" | .Exists => "EXISTS"
  | .Any => "ANY" | .With => "WITH" | .Recursive => "RECURSIVE"
  | .Returning => "RETURNING" | .Using => "USING" | .Natural => "NATURAL"
  | .Fetch => "FETCH" | .For => "FOR" | .Window => "WINDOW" | .Over => "OVER"
  | .Partition => "PARTITION" | .Rows => "ROWS" | .Range => "RANGE"
  | .Unbounded => "UNBOUNDED" | .Preceding => "PRECEDING"
  | .Following => "FOLLOWING" | .Current => "CURRENT" | .Row => "ROW"
  | .Order => "ORDER" | .Group => "GROUP" | .Left => "LEFT" | .Right => "RIGHT"
  | .Inner => "INNER" | .Outer => "OUTER" | .Full => "FULL" | .Cross => "CROSS"
  | .Create => "CREATE" | .Alter => "ALTER" | .Drop => "DROP"
  | .Table => "TABLE" | .Index => "INDEX" | .View => "VIEW"
  | .Column => "COLUMN" | .Add => "ADD" | .Primary => "PRIMARY" | .Key => "KEY"
  | .Foreign => "FOREIGN" | .References => "REFERENCES" | .Unique => "UNIQUE"
  | .Default => "DEFAULT" | .Check => "CHECK" | .Constraint => "CONSTRAINT"
  | .Cascade => "CASCADE" | .Restrict => "RESTRICT" | .If => "IF"
  | .Temporary => "TEMPORARY" | .Temp => "TEMP" | .Schema => "SCHEMA"
  | .Database => "DATABASE" | .Sequence => "SEQUENCE" | .Trigger => "TRIGGER"
  | .Function => "FUNCTION" | .Procedure => "PROCEDURE" | .Type => "TYPE"
  | .Enum => "ENUM" | .Grant => "GRANT" | .Revoke => "REVOKE"
  | .Truncate => "TRUNCATE" | .Rename => "RENAME" | .Replace => "REPLACE"
  | .Comment => "COMMENT"
  | .True => "TRUE" | .False => "FALSE" | .Begin => "BEGIN"
  | .Commit => "COMMIT" | .Rollback => "ROLLBACK" | .Savepoint => "SAVEPOINT"
  | .Transaction => "TRANSACTION" | .Lock => "LOCK" | .Unlock => "UNLOCK"
  | .OrderBy => "ORDER BY" | .GroupBy => "GROUP BY" | .LeftJoin => "LEFT JOIN"
  | .RightJoin => "RIGHT JOIN" | .InnerJoin => "INNER JOIN"
  | .OuterJoin => "OUTER JOIN" | .FullJoin => "FULL JOIN"
  | .CrossJoin => "CROSS JOIN" | .UnionAll => "UNION ALL"
  | .PrimaryKey => "PRIMARY KEY" | .ForeignKey => "FOREIGN KEY"
  | .IfExists => "IF EXISTS" | .IfNotExists => "IF NOT EXISTS"
  | .RowsBetween => "ROWS BETWEEN" | .RangeBetween => "RANGE BETWEEN"

def is_clause_starter : KeywordKind → Bool
  | .Select | .From | .Where | .Set | .Values | .Into | .Having | .Limit | .Offset
  | .Union | .UnionAll | .Intersect | .Except | .Returning | .Insert | .Update
  | .Delete | .With | .Fetch => true
  | _ => false

def is_join_keyword : KeywordKind → Bool
  | .Join | .LeftJoin | .RightJoin | .InnerJoin | .OuterJoin | .FullJoin
  | .CrossJoin | .Natural => true
  | _ => false

def is_sub_clause : KeywordKind → Bool
  | .On | .And | .Or => true
  | _ => false

def is_order_modifier : KeywordKind → Bool
  | .OrderBy | .GroupBy => true
  | _ => false

def is_ddl_starter : KeywordKind → Bool
  | .Create | .Alter | .Drop | .Truncate | .Grant | .Revoke => true
  | _ => false

end KeywordKind

/-- ASCII uppercase of one char (used for case-insensitive keyword lookup). -/
def upperAsciiChar (c : Char) : Char :=
  if 97 ≤ c.toNat ∧ c.toNat ≤ 122 then Char.ofNat (c.toNat - 32) else c

/-- ASCII lowercase of one char (used for keyword emission). -/
def lowerAsciiChar (c : Char) : Char :=
  if 65 ≤ c.toNat ∧ c.toNat ≤ 90 then Char.ofNat (c.toNat + 32) else c

def upperAscii (s : String) : String := String.mk (s.data.map upperAsciiChar)

def lowerAscii (s : String) : String := String.mk (s.data.map lowerAsciiChar)

/-- `lookup_keyword` from src/token.rs: case-insensitive match against the
single-word table only; multi-word kinds are never returned here. -/
def lookup_keyword (word : String) : Option KeywordKind :=
  match upperAscii word with
  | "SELECT" => some .Select | "FROM" => some .From | "WHERE" => some .Where
  | "AND" => some .And | "OR" => some .Or | "NOT" => some .Not
  | "IN" => some .In | "BETWEEN" => some .Between | "LIKE" => some .Like
  | "IS" => some .Is | "NULL" => some .Null | "AS" => some .As
  | "ON" => some .On | "JOIN" => some .Join | "HAVING" => some .Having
  | "LIMIT" => some .Limit | "OFFSET" => some .Offset
  | "UNION" => some .Union | "INTERSECT" => some .Intersect
  | "EXCEPT" => some .Except | "INSERT" => some .Insert
  | "INTO" => some .Into | "VALUES" => some .Values
  | "UPDATE" => some .Update | "SET" => some .Set | "DELETE" => some .Delete
  | "DISTINCT" => some .Distinct | "ALL" => some .All | "ASC" => some .Asc
  | "DESC" => some .Desc | "CASE" => some .Case | "WHEN" => some .When
  | "THEN" => some .Then | "ELSE" => some .Else | "END" => some .End
  | "EXISTS" => some .Exists | "ANY" => some .Any | "WITH" => some .With
  | "RECURSIVE" => some .Recursive | "RETURNING" => some .Returning
  | "USING" => some .Using | "NATURAL" => some .Natural
  | "FETCH" => some .Fetch | "FOR" => some .For | "WINDOW" => some .Window
  | "OVER" => some .Over | "PARTITION" => some .Partition
  | "ROWS" => some .Rows | "RANGE" => some .Range
  | "UNBOUNDED" => some .Unbounded | "PRECEDING" => some .Preceding
  | "FOLLOWING" => some .Following | "CURRENT" => some .Current
  | "ROW" => some .Row
  | "ORDER" => some .Order | "GROUP" => some .Group | "LEFT" => some .Left
  | "RIGHT" => some .Right | "INNER" => some .Inner | "OUTER" => some .Outer
  | "FULL" => some .Full | "CROSS" => some .Cross
  | "CREATE" => some .Create | "ALTER" => some .Alter | "DROP" => some .Drop
  | "TABLE" => some .Table | "INDEX" => some .Index | "VIEW" => some .View
  | "COLUMN" => some .Column | "ADD" => some .Add
  | "PRIMARY" => some .Primary | "KEY" => some .Key
  | "FOREIGN" => some .Foreign | "REFERENCES" => some .References
  | "UNIQUE" => some .Unique | "DEFAULT" => some .Default
  | "CHECK" => some .Check | "CONSTRAINT" => some .Constraint
  | "CASCADE" => some .Cascade | "RESTRICT" => some .Restrict
  | "IF" => some .If | "TEMPORARY" => some .Temporary
  | "TEMP" => some .Temp | "SCHEMA" => some .Schema
  | "DATABASE" => some .Database | "SEQUENCE" => some .Sequence
  | "TRIGGER" => some .Trigger | "FUNCTION" => some .Function
  | "PROCEDURE" => some .Procedure | "TYPE" => some .Type
  | "ENUM" => some .Enum | "GRANT" => some .Grant | "REVOKE" => some .Revoke
  | "TRUNCATE" => some .Truncate | "RENAME" => some .Rename
  | "REPLACE" => some .Replace | "COMMENT" => some .Comment
  | "TRUE" => some .True | "FALSE" => some .False | "BEGIN" => some .Begin
  | "COMMIT" => some .Commit | "ROLLBACK" => some .Rollback
  | "SAVEPOINT" => some .Savepoint | "TRANSACTION" => some .Transaction
  | "LOCK" => some .Lock | "UNLOCK" => some .Unlock
  | _ => none

/-! ## Byte-level lexer (src/lexer.rs)

Input is the UTF-8 byte sequence of the source, one `Nat` per byte.
Token payloads are the byte sub-sequences the Rust code slices out of the
input (content only, delimiters excluded, exactly as in `lexer.rs`). -/

/-- Token model of src/token.rs at byte level. -/
inductive BToken where
  | Keyword (kw : KeywordKind)
  | Identifier (s : List Nat)
  | QuotedIdentifier (s : List Nat)
  | StringLiteral (s : List Nat)
  | NumberLiteral (s : List Nat)
  | Operator (s : List Nat)
  | Comma
  | Semicolon
  | Dot
  | OpenParen
  | CloseParen
  | LineComment (s : List Nat)
  | BlockComment (s : List Nat)
  | Whitespace (s : List Nat)
  | TemplateVariable (s : List Nat)
  deriving DecidableEq, Repr

/-- `u8::is_ascii_whitespace`: space, tab, LF, FF, CR. -/
def isWsB (b : Nat) : Bool :=
  b = 32 || b = 9 || b = 10 || b = 12 || b = 13

def isDigitB (b : Nat) : Bool := 48 ≤ b && b ≤ 57

/-- `u8::is_ascii_alphabetic`. -/
def isAlphaB (b : Nat) : Bool := (65 ≤ b && b ≤ 90) || (97 ≤ b && b ≤ 122)

/-- Byte that may continue a word: alphanumeric or underscore. -/
def isWordB (b : Nat) : Bool := isAlphaB b || isDigitB b || b = 95

/-- Byte that may start a word: alphabetic or underscore. -/
def isWordStartB (b : Nat) : Bool := isAlphaB b || b = 95

/-- Bytes that dispatch to `lex_operator` in `next_token`. -/
def isOpStartB (b : Nat) : Bool :=
  b = 60 || b = 62 || b = 33 || b = 61 || b = 124 || b = 43 || b = 45 ||
  b = 42 || b = 47 || b = 37 || b = 38 || b = 94 || b = 126 || b = 58

/-- Scan for the closing star-slash of a block comment; returns the content
and, when terminated, the remainder after the closing delimiter. -/
def findBlockEnd : List Nat → List Nat × Option (List Nat)
  | [] => ([], none)
  | [b] => ([b], none)
  | b :: c :: rest =>
    if b = 42 ∧ c = 47 then ([], some rest)
    else
      let p := findBlockEnd (c :: rest)
      (b :: p.1, p.2)

/-- Scan a single-quoted string body with doubled-quote escapes; returns the
raw content (escapes included) and the remainder after the closing quote. -/
def findStringEnd : List Nat → List Nat × Option (List Nat)
  | [] => ([], none)
  | [b] => if b = 39 then ([], some []) else ([b], none)
  | b :: c :: rest =>
    if b = 39 then
      if c = 39 then
        let p := findStringEnd rest
        (39 :: 39 :: p.1, p.2)
      else ([], some (c :: rest))
    else
      let p := findStringEnd (c :: rest)
      (b :: p.1, p.2)

/-- Scan a double-quoted identifier body: no escapes, stop at the closing
quote; returns content and the remainder after the closing quote. -/
def findQuotedEnd : List Nat → List Nat × Option (List Nat)
  | [] => ([], none)
  | b :: rest =>
    if b = 34 then ([], some rest)
    else
      let p := findQuotedEnd rest
      (b :: p.1, p.2)

/-- Scan a template variable body for the closing double-brace. -/
def findTemplateEnd : List Nat → Option (List Nat × List Nat)
  | [] => none
  | [_] => none
  | b :: c :: rest =>
    if b = 125 ∧ c = 125 then some ([], rest)
    else (findTemplateEnd (c :: rest)).map fun p => (b :: p.1, p.2)

/-- THREE_CHAR_OPS from src/lexer.rs: only the double JSON arrow. -/
def threeCharOps : List (List Nat) := [[45, 62, 62]]

/-- TWO_CHAR_OPS from src/lexer.rs. -/
def twoCharOps : List (List Nat) :=
  [[60, 62], [33, 61], [60, 61], [62, 61], [124, 124], [58, 58], [45, 62]]

/-- `Lexer::lex_operator`: longest-first operator match. Returns content
(equal to what is consumed) and rest. -/
def lex_operator (l : List Nat) : List Nat × List Nat :=
  if 3 ≤ l.length ∧ l.take 3 ∈ threeCharOps then (l.take 3, l.drop 3)
  else if 2 ≤ l.length ∧ l.take 2 ∈ twoCharOps then (l.take 2, l.drop 2)
  else (l.take 1, l.drop 1)

/-- `Lexer::lex_number`: digits, then an optional fraction whose dot must be
followed by a digit. Returns content (equal to what is consumed) and rest. -/
def lex_number (l : List Nat) : List Nat × List Nat :=
  let ip := l.takeWhile isDigitB
  let r1 := l.dropWhile isDigitB
  if r1.head? = some 46 ∧ ((r1.tail.head?.map isDigitB).getD false) = true then
    (ip ++ 46 :: r1.tail.takeWhile isDigitB, r1.tail.dropWhile isDigitB)
  else (ip, r1)

/-- `Lexer::peek_word_after_whitespace`: skip whitespace, then read a word
that must start with a letter or underscore. Returns
(whitespace skipped, word, rest). -/
def peek_word_after_whitespace (l : List Nat) :
    Option (List Nat × List Nat × List Nat) :=
  match (l.dropWhile isWsB).head? with
  | none => none
  | some b =>
    if isWordStartB b then
      some (l.takeWhile isWsB, (l.dropWhile isWsB).takeWhile isWordB,
        (l.dropWhile isWsB).dropWhile isWordB)
    else none

/-- Render a byte list of ASCII bytes as a string (words consist of ASCII
alphanumerics/underscore only, so this is exact). -/
def strOfBytes (l : List Nat) : String := String.mk (l.map Char.ofNat)

/-- Case-insensitive comparison of a scanned word against an expected ASCII
keyword spelling (`eq_ignore_ascii_case`). -/
def wordMatches (w : List Nat) (expected : String) : Bool :=
  upperAscii (strOfBytes w) = expected

/-- TWO_WORD_KEYWORDS from src/lexer.rs. -/
def twoWordKeywords : List (KeywordKind × String × KeywordKind) :=
  [(.Order, "BY", .OrderBy), (.Group, "BY", .GroupBy),
   (.Left, "JOIN", .LeftJoin), (.Right, "JOIN", .RightJoin),
   (.Inner, "JOIN", .InnerJoin), (.Outer, "JOIN", .OuterJoin),
   (.Cross, "JOIN", .CrossJoin), (.Union, "ALL", .UnionAll),
   (.Primary, "KEY", .PrimaryKey), (.Foreign, "KEY", .ForeignKey),
   (.Rows, "BETWEEN", .RowsBetween), (.Range, "BETWEEN", .RangeBetween)]

/-- `Lexer::try_two_word` applied after consuming the first word: on a
case-insensitive match of the next word, consume through it. Returns
(token, extra bytes consumed, rest). -/
def try_two_word (standalone : KeywordKind) (expected : String)
    (combined : KeywordKind) (rest : List Nat) :
    BToken × List Nat × List Nat :=
  match peek_word_after_whitespace rest with
  | some (ws, w, r) =>
    if wordMatches w expected then (.Keyword combined, ws ++ w, r)
    else (.Keyword standalone, [], rest)
  | none => (.Keyword standalone, [], rest)

/-- `Lexer::try_keyword_combination`: three-word policy with two alternative
continuations checked shortest-first (FULL and IF). -/
def try_keyword_combination (standalone : KeywordKind) (direct : String)
    (directCombined : KeywordKind) (middle : String) (final : String)
    (fullCombined : KeywordKind) (rest : List Nat) :
    BToken × List Nat × List Nat :=
  match peek_word_after_whitespace rest with
  | some (ws, w, r) =>
    if wordMatches w direct then (.Keyword directCombined, ws ++ w, r)
    else if wordMatches w middle then
      match peek_word_after_whitespace r with
      | some (ws2, w2, r2) =>
        if wordMatches w2 final then
          (.Keyword fullCombined, ws ++ w ++ ws2 ++ w2, r2)
        else (.Keyword standalone, [], rest)
      | none => (.Keyword standalone, [], rest)
    else (.Keyword standalone, [], rest)
  | none => (.Keyword standalone, [], rest)

/-- `Lexer::try_combine_keyword`: dispatch to the two-word table or the
FULL/IF three-word rules. -/
def try_combine_keyword (kind : KeywordKind) (rest : List Nat) :
    BToken × List Nat × List Nat :=
  match twoWordKeywords.find? (fun e => e.1 = kind) with
  | some (_, expected, combined) => try_two_word kind expected combined rest
  | none =>
    if kind = .Full then
      try_keyword_combination .Full ("JOIN") .FullJoin ("OUTER") ("JOIN")
        .FullJoin rest
    else if kind = .If then
      try_keyword_combination .If ("EXISTS") .IfExists ("NOT") ("EXISTS")
        .IfNotExists rest
    else (.Keyword kind, [], rest)

/-- `Lexer::lex_word`: scan a word, look it up, try multi-word combination.
Returns (token, consumed, rest). -/
def lex_word (l : List Nat) : BToken × List Nat × List Nat :=
  let w := l.takeWhile isWordB
  let rest := l.dropWhile isWordB
  match lookup_keyword (strOfBytes w) with
  | some kind =>
    let p := try_combine_keyword kind rest
    (p.1, w ++ p.2.1, p.2.2)
  | none => (.Identifier w, w, rest)

/-- `Lexer::next_token`: one dispatch step. Returns the token, the bytes it
consumed, and the remaining input. -/
def next_token (l : List Nat) : Option (BToken × List Nat × List Nat) :=
  match l with
  | [] => none
  | b :: r =>
    if isWsB b then
      some (.Whitespace (l.takeWhile isWsB), l.takeWhile isWsB,
        l.dropWhile isWsB)
    else if b = 45 ∧ r.head? = some 45 then
      let body := r.tail
      let content := body.takeWhile (fun x => ¬ x = 10)
      some (.LineComment content, 45 :: 45 :: content,
        body.dropWhile (fun x => ¬ x = 10))
    else if b = 47 ∧ r.head? = some 42 then
      let p := findBlockEnd r.tail
      match p.2 with
      | some rest => some (.BlockComment p.1, 47 :: 42 :: p.1 ++ [42, 47], rest)
      | none => some (.BlockComment p.1, 47 :: 42 :: p.1, [])
    else if b = 39 then
      let p := findStringEnd r
      match p.2 with
      | some rest => some (.StringLiteral p.1, 39 :: p.1 ++ [39], rest)
      | none => some (.StringLiteral p.1, 39 :: p.1, [])
    else if b = 34 then
      let p := findQuotedEnd r
      match p.2 with
      | some rest => some (.QuotedIdentifier p.1, 34 :: p.1 ++ [34], rest)
      | none => some (.QuotedIdentifier p.1, 34 :: p.1, [])
    else if isDigitB b then
      let p := lex_number l
      some (.NumberLiteral p.1, p.1, p.2)
    else if b = 46 ∧ (r.head?.map isDigitB).getD false then
      let p := lex_number l
      some (.NumberLiteral p.1, p.1, p.2)
    else if b = 44 then some (.Comma, [44], r)
    else if b = 59 then some (.Semicolon, [59], r)
    else if b = 46 then some (.Dot, [46], r)
    else if b = 40 then some (.OpenParen, [40], r)
    else if b = 41 then some (.CloseParen, [41], r)
    else if b = 123 ∧ r.head? = some 123 then
      match findTemplateEnd r.tail with
      | some (content, rest) =>
        some (.TemplateVariable content,
          123 :: 123 :: content ++ [125, 125], rest)
      | none => some (.Operator [123], [123], r)
    else if b = 123 ∨ b = 125 then some (.Operator [b], [b], r)
    else if isOpStartB b then
      let p := lex_operator l
      some (.Operator p.1, p.1, p.2)
    else if isWordStartB b then some (lex_word l)
    else some (.Operator [b], [b], r)

/-- Fuel-driven token loop: fuel bounds the number of tokens, which the
input length always covers since every step consumes at least one byte. -/
def tokenizeSpansGo : Nat → List Nat → List (BToken × List Nat)
  | 0, _ => []
  | fuel + 1, l =>
    match next_token l with
    | none => []
    | some (t, c, r) => (t, c) :: tokenizeSpansGo fuel r

/-- The token sequence of an input, each token paired with the byte span it
consumed (delimiters included). -/
def tokenizeSpans (l : List Nat) : List (BToken × List Nat) :=
  tokenizeSpansGo l.length l

/-- `tokenize` from src/lexer.rs. -/
def tokenize (l : List Nat) : List BToken :=
  (tokenizeSpans l).map Prod.fst

/-! ## Formatter model (src/formatter/)

Char-level: Rust `String` operations (`push`, `push_str`, `trim_end`,
`lines`) act on `char` sequences, modelled as `List Char`. -/

/-- Token model with string payloads, as consumed by the formatter. -/
inductive FToken where
  | Keyword (kw : KeywordKind)
  | Identifier (s : String)
  | QuotedIdentifier (s : String)
  | StringLiteral (s : String)
  | NumberLiteral (s : String)
  | Operator (s : String)
  | Comma
  | Semicolon
  | Dot
  | OpenParen
  | CloseParen
  | LineComment (s : String)
  | BlockComment (s : String)
  | Whitespace (s : String)
  | TemplateVariable (s : String)
  deriving DecidableEq, Repr

/-- Render a byte-level token at char level (exact for ASCII payloads). -/
def BToken.toF : BToken → FToken
  | .Keyword kw => .Keyword kw
  | .Identifier s => .Identifier (strOfBytes s)
  | .QuotedIdentifier s => .QuotedIdentifier (strOfBytes s)
  | .StringLiteral s => .StringLiteral (strOfBytes s)
  | .NumberLiteral s => .NumberLiteral (strOfBytes s)
  | .Operator s => .Operator (strOfBytes s)
  | .Comma => .Comma
  | .Semicolon => .Semicolon
  | .Dot => .Dot
  | .OpenParen => .OpenParen
  | .CloseParen => .CloseParen
  | .LineComment s => .LineComment (strOfBytes s)
  | .BlockComment s => .BlockComment (strOfBytes s)
  | .Whitespace s => .Whitespace (strOfBytes s)
  | .TemplateVariable s => .TemplateVariable (strOfBytes s)

def FToken.is_whitespace_tok : FToken → Bool
  | .Whitespace _ => true
  | _ => false

/-- `ClauseContext` from src/formatter/mod.rs. -/
inductive ClauseContext where
  | None | Select | From | Where | Set | Values | Having | GroupBy
  | OrderBy | Join | Ddl | Cte | Other
  deriving DecidableEq, Repr

inductive FormatStyle where
  | Basic | Streamline | Aligned | Dataops
  deriving DecidableEq, Repr

/-- `FormatStyle::from_name` from src/config.rs: unknown names fall back to
Basic. -/
def FormatStyle.from_name (name : String) : FormatStyle :=
  match name with
  | "basic" => .Basic
  | "streamline" => .Streamline
  | "aligned" => .Aligned
  | "dataops" => .Dataops
  | _ => .Basic

structure FormatOptions where
  uppercase : Bool
  style : FormatStyle
  deriving DecidableEq, Repr

def FormatOptions.default : FormatOptions := ⟨true, .Basic⟩

def is_single_value_clause (kw : KeywordKind) : Bool :=
  kw = .Limit || kw = .Offset

def clause_context_from_keyword (kw : KeywordKind) : ClauseContext :=
  match kw with
  | .Select => .Select
  | .From => .From
  | .Where => .Where
  | .Set => .Set
  | .Values => .Values
  | .Having => .Having
  | _ => .Other

/-- The `::`, `->`, `->>` operators that suppress surrounding spaces. -/
def FToken.is_tight_operator : FToken → Bool
  | .Operator op => op = "::" || op = "->" || op = "->>"
  | _ => false

/-- `needs_space_before` from src/formatter/mod.rs. -/
def needs_space_before (token : FToken) (prev : Option FToken) : Bool :=
  match prev with
  | none => false
  | some prev_token =>
    if token.is_tight_operator then false
    else if prev_token.is_tight_operator then false
    else
      match prev_token, token with
      | .OpenParen, _ => false
      | _, .CloseParen => false
      | .Dot, _ => false
      | _, .Dot => false
      | _, .Comma => false
      | _, .Semicolon => false
      | _, _ => true

/-- `char::is_whitespace` (Unicode White_Space), used by Rust `trim_end`. -/
def rust_char_is_whitespace (c : Char) : Bool :=
  c.toNat = 9 || c.toNat = 10 || c.toNat = 11 || c.toNat = 12 ||
  c.toNat = 13 || c.toNat = 32 || c.toNat = 133 || c.toNat = 160 ||
  c.toNat = 5760 || (8192 ≤ c.toNat && c.toNat ≤ 8202) ||
  c.toNat = 8232 || c.toNat = 8233 || c.toNat = 8239 || c.toNat = 8287 ||
  c.toNat = 12288

/-- `str::trim_end`. -/
def rust_trim_end (l : List Char) : List Char :=
  (l.reverse.dropWhile rust_char_is_whitespace).reverse

/-- Split on newline chars, keeping a (possibly empty) final segment. -/
def splitNl : List Char → List (List Char)
  | [] => [[]]
  | c :: rest =>
    let ps := splitNl rest
    if c = '\n' then [] :: ps else (c :: ps.headD []) :: ps.tail

/-- `str::lines`: split terminator semantics, stripping a final `\r`. -/
def lines_rust (l : List Char) : List (List Char) :=
  if l = [] then []
  else
    let ps := splitNl l
    let ps2 := if l.getLast? = some '\n' then ps.dropLast else ps
    ps2.map fun line =>
      if line.getLast? = some '\r' then line.dropLast else line

/-- `FormatterBase` from src/formatter/mod.rs. The Rust `Vec` stack pushes
and pops at the end; the list here keeps the stack top at the head. -/
structure FormatterBase where
  paren_depth : Nat
  is_subquery_paren : List Bool
  inline_paren_depth : Nat
  clause_context : ClauseContext
  is_first_token : Bool
  prev_was_ddl_starter : Bool
  output : List Char
  deriving DecidableEq, Repr

def FormatterBase.new : FormatterBase :=
  ⟨0, [], 0, .None, true, false, []⟩

def FormatterBase.is_inline (b : FormatterBase) : Bool :=
  decide (0 < b.inline_paren_depth)

def FormatterBase.push (b : FormatterBase) (c : Char) : FormatterBase :=
  { b with output := b.output ++ [c] }

def FormatterBase.push_str (b : FormatterBase) (s : String) : FormatterBase :=
  { b with output := b.output ++ s.data }

def keyword_str (opts : FormatOptions) (kw : KeywordKind) : String :=
  if opts.uppercase then kw.as_str else lowerAscii kw.as_str

/-- The capability set every layout engine implements
(`SqlFormatter` trait in src/formatter/mod.rs). -/
structure Engine (σ : Type) where
  getBase : σ → FormatterBase
  setBase : σ → FormatterBase → σ
  format_keyword : σ → KeywordKind → Option FToken → σ
  format_comma : σ → σ
  format_open_paren : σ → Option FToken → Option FToken → σ
  format_close_paren : σ → σ
  format_semicolon : σ → σ
  format_value : σ → String → Option FToken → FToken → σ
  on_comment : σ → σ
  on_dot : σ → σ
  finalize_output : σ → List Char

/-- One iteration of the shared driver loop (`SqlFormatter::format`):
`next` is the following non-whitespace token (open-paren lookahead). -/
def drive_step {σ : Type} (E : Engine σ) (s : σ) (token : FToken)
    (prev next : Option FToken) : σ :=
  match token with
  | .Keyword kw =>
    if prev = some .Dot then
      E.format_value s (lowerAscii kw.as_str) prev token
    else E.format_keyword s kw prev
  | .Comma => E.format_comma s
  | .OpenParen => E.format_open_paren s next prev
  | .CloseParen => E.format_close_paren s
  | .Semicolon => E.format_semicolon s
  | .LineComment text =>
    let b := E.getBase s
    let b := if !b.is_first_token then b.push ' ' else b
    let b := (b.push_str ("--")).push_str text
    let b := { b with is_first_token := false }
    E.on_comment (E.setBase s b)
  | .BlockComment text =>
    let b := E.getBase s
    let b :=
      if !b.is_first_token && needs_space_before token prev then b.push ' '
      else b
    let b := ((b.push_str ("/*")).push_str text).push_str ("*/")
    let b := { b with is_first_token := false }
    E.on_comment (E.setBase s b)
  | .Dot =>
    let b := (E.getBase s).push '.'
    let b := { b with is_first_token := false }
    E.on_dot (E.setBase s b)
  | .Identifier name => E.format_value s name prev token
  | .QuotedIdentifier name =>
    E.format_value s ("\"" ++ name ++ "\"") prev token
  | .StringLiteral v => E.format_value s ("'" ++ v ++ "'") prev token
  | .NumberLiteral v => E.format_value s v prev token
  | .Operator op => E.format_value s op prev token
  | .TemplateVariable content =>
    E.format_value s ("\x7b\x7b" ++ content ++ "\x7d\x7d") prev token
  | .Whitespace _ => s

/-- The driver loop over the whitespace-filtered token list. -/
def drive {σ : Type} (E : Engine σ) : σ → Option FToken → List FToken → σ
  | s, _, [] => s
  | s, prev, t :: rest => drive E (drive_step E s t prev rest.head?) (some t) rest

/-- `SqlFormatter::format`: filter whitespace, run the loop, finalize. -/
def run_format {σ : Type} (E : Engine σ) (init : σ) (tokens : List FToken) :
    List Char :=
  E.finalize_output
    (drive E init none (tokens.filter fun t => !t.is_whitespace_tok))

/-! ### Block-indented engines (src/formatter/basic.rs, dataops.rs)

`basic.rs` and `dataops.rs` are identical except for `do_format_comma`
(trailing vs leading commas); one state-transition system parameterized by
the comma style embeds both. -/

/-- Comma placement: `Trailing` is basic.rs, `Leading` is dataops.rs. -/
inductive CommaStyle where
  | Trailing | Leading
  deriving DecidableEq, Repr

structure BlockState where
  base : FormatterBase
  indent_depth : Nat
  needs_indent_newline : Bool
  needs_space_only : Bool
  after_comma_newline : Bool
  deriving DecidableEq, Repr

def BlockState.new : BlockState := ⟨FormatterBase.new, 0, false, false, false⟩

/-- `write_indent`: four spaces per depth level. -/
def indentChars (depth : Nat) : List Char := List.replicate (4 * depth) ' '

def BlockState.write_newline_at (s : BlockState) (depth : Nat) : BlockState :=
  { s with base :=
    { s.base with output := s.base.output ++ '\n' :: indentChars depth } }

/-- `base_indent`: number of enclosing subquery frames. -/
def BlockState.base_indent (s : BlockState) : Nat :=
  (s.base.is_subquery_paren.filter fun x => x).length

/-- `ddl_base_paren_depth` (same computation as `base_indent`). -/
def BlockState.ddl_base_paren_depth (s : BlockState) : Nat :=
  (s.base.is_subquery_paren.filter fun x => x).length

def BlockState.clear_pending_state (s : BlockState) : BlockState :=
  { s with needs_indent_newline := false, needs_space_only := false,
           after_comma_newline := false }

def BlockState.push (s : BlockState) (c : Char) : BlockState :=
  { s with base := s.base.push c }

def BlockState.push_str (s : BlockState) (t : String) : BlockState :=
  { s with base := s.base.push_str t }

def BlockState.set_first (s : BlockState) (v : Bool) : BlockState :=
  { s with base := { s.base with is_first_token := v } }

/-- `try_emit_inline`: `none` when not inside an inline paren. -/
def block_try_emit_inline (s : BlockState) (kw : KeywordKind)
    (kw_str : String) (prev : Option FToken) : Option BlockState :=
  if s.base.is_inline then
    let s :=
      if needs_space_before (.Keyword kw) prev then s.push ' ' else s
    some ((s.push_str kw_str).set_first false)
  else none

/-- `emit_clause_content`: `none` when no pending directive was armed. -/
def block_emit_clause_content (s : BlockState) (text : String) :
    Option BlockState :=
  if s.needs_indent_newline then
    let s := { s with needs_indent_newline := false }
    some ((s.write_newline_at s.indent_depth).push_str text)
  else if s.needs_space_only then
    let s := { s with needs_space_only := false }
    some ((s.push ' ').push_str text)
  else none

def block_format_ddl_keyword (s : BlockState) (kw_str : String) :
    BlockState :=
  let s := s.clear_pending_state
  let s :=
    if !s.base.is_first_token then s.write_newline_at s.base_indent else s
  let s := (s.push_str kw_str).set_first false
  let s := { s with base :=
    { s.base with prev_was_ddl_starter := true, clause_context := .Ddl } }
  { s with indent_depth := s.base_indent + 1 }

def block_format_clause_starter (s : BlockState) (kw : KeywordKind)
    (kw_str : String) (prev : Option FToken) : BlockState :=
  match block_try_emit_inline s kw kw_str prev with
  | some s2 => s2.clear_pending_state
  | none =>
    let s := s.clear_pending_state
    let base := s.base_indent
    let s := if !s.base.is_first_token then s.write_newline_at base else s
    let s := (s.push_str kw_str).set_first false
    let s := { s with base :=
      { s.base with prev_was_ddl_starter := false,
                    clause_context := clause_context_from_keyword kw } }
    let s := { s with indent_depth := base + 1 }
    if is_single_value_clause kw then { s with needs_space_only := true }
    else { s with needs_indent_newline := true }

def block_format_join_keyword (s : BlockState) (kw_str : String)
    (prev : Option FToken) : BlockState :=
  match block_try_emit_inline s .Join kw_str prev with
  | some s2 => s2
  | none =>
    let s := s.clear_pending_state
    let base := s.base_indent
    let s := if !s.base.is_first_token then s.write_newline_at base else s
    let s := (s.push_str kw_str).set_first false
    let s := { s with base :=
      { s.base with clause_context := .Join, prev_was_ddl_starter := false } }
    { s with indent_depth := base + 1, needs_space_only := true }

def block_format_order_modifier (s : BlockState) (kw : KeywordKind)
    (kw_str : String) (prev : Option FToken) : BlockState :=
  match block_try_emit_inline s kw kw_str prev with
  | some s2 => s2
  | none =>
    let s := s.clear_pending_state
    let base := s.base_indent
    let s := if !s.base.is_first_token then s.write_newline_at base else s
    let s := (s.push_str kw_str).set_first false
    let s := { s with indent_depth := base + 1 }
    let s := { s with base :=
      { s.base with prev_was_ddl_starter := false } }
    let s :=
      if kw = .GroupBy then
        { s with base := { s.base with clause_context := .GroupBy } }
      else if kw = .OrderBy then
        { s with base := { s.base with clause_context := .OrderBy } }
      else s
    { s with needs_indent_newline := true }

def block_format_sub_clause_keyword (s : BlockState) (kw : KeywordKind)
    (kw_str : String) (prev : Option FToken) : BlockState :=
  match block_try_emit_inline s kw kw_str prev with
  | some s2 => s2
  | none =>
    let s := s.clear_pending_state
    let base := s.base_indent
    let s := s.write_newline_at (base + 1)
    let s := (s.push_str kw_str).set_first false
    { s with indent_depth := base + 1 }

def block_format_other_keyword (s : BlockState) (kw : KeywordKind)
    (kw_str : String) (prev : Option FToken) : BlockState :=
  match block_try_emit_inline s kw kw_str prev with
  | some s2 => s2
  | none =>
    if s.base.prev_was_ddl_starter then
      let s := ((s.push ' ').push_str kw_str).set_first false
      let s := { s with base :=
        { s.base with prev_was_ddl_starter := false } }
      { s with needs_indent_newline := false, needs_space_only := false }
    else
      match block_emit_clause_content s kw_str with
      | some s2 => s2.set_first false
      | none =>
        if s.after_comma_newline then
          let s := { s with after_comma_newline := false }
          (s.push_str kw_str).set_first false
        else
          let s :=
            if needs_space_before (.Keyword kw) prev then s.push ' ' else s
          (s.push_str kw_str).set_first false

def block_format_keyword (opts : FormatOptions) (s : BlockState)
    (kw : KeywordKind) (prev : Option FToken) : BlockState :=
  let kw_str := keyword_str opts kw
  if kw.is_ddl_starter then block_format_ddl_keyword s kw_str
  else if kw.is_clause_starter then
    block_format_clause_starter s kw kw_str prev
  else if kw.is_join_keyword then block_format_join_keyword s kw_str prev
  else if kw.is_order_modifier then
    block_format_order_modifier s kw kw_str prev
  else if kw = .On || kw = .And || kw = .Or then
    block_format_sub_clause_keyword s kw kw_str prev
  else block_format_other_keyword s kw kw_str prev

/-- `do_format_comma`: basic.rs for `Trailing`, dataops.rs for `Leading`. -/
def block_format_comma (cs : CommaStyle) (s : BlockState) : BlockState :=
  let s := s.clear_pending_state
  if s.base.is_inline then (s.push ',').set_first false
  else
    match s.base.clause_context with
    | .Select | .GroupBy | .OrderBy | .Set | .Ddl =>
      match cs with
      | .Trailing =>
        let s := (s.push ',').write_newline_at s.indent_depth
        { s.set_first false with after_comma_newline := true }
      | .Leading =>
        let s := (s.write_newline_at s.indent_depth).push_str (", ")
        { s.set_first false with after_comma_newline := true }
    | _ => (s.push ',').set_first false

/-- The one-token lookahead deciding whether an open paren starts a
subquery: the next non-whitespace token is a clause-starter keyword. -/
def paren_is_subquery (next : Option FToken) : Bool :=
  match next with
  | some (.Keyword kw) => kw.is_clause_starter
  | _ => false

def block_format_open_paren (s : BlockState) (next prev : Option FToken) :
    BlockState :=
  let s :=
    if s.needs_indent_newline then
      { s.write_newline_at s.indent_depth with needs_indent_newline := false }
    else s
  let s := { s with needs_space_only := false, after_comma_newline := false }
  if paren_is_subquery next = true then
    let s := { s with base :=
      { s.base with paren_depth := s.base.paren_depth + 1,
                    is_subquery_paren := true :: s.base.is_subquery_paren } }
    let s := { s with indent_depth := s.base_indent }
    let s :=
      if needs_space_before .OpenParen prev then s.push ' ' else s
    (s.push '(').set_first false
  else if s.base.clause_context = ClauseContext.Ddl ∧
      s.base.paren_depth = s.ddl_base_paren_depth then
    let s := { s with base :=
      { s.base with paren_depth := s.base.paren_depth + 1,
                    is_subquery_paren := false :: s.base.is_subquery_paren } }
    let s :=
      if needs_space_before .OpenParen prev then s.push ' ' else s
    let s := (s.push '(').write_newline_at s.indent_depth
    s.set_first false
  else
    let s := { s with base :=
      { s.base with paren_depth := s.base.paren_depth + 1,
                    is_subquery_paren := false :: s.base.is_subquery_paren,
                    inline_paren_depth := s.base.inline_paren_depth + 1 } }
    let s :=
      match prev with
      | some (.Identifier _) => s
      | _ => if needs_space_before .OpenParen prev then s.push ' ' else s
    (s.push '(').set_first false

def block_format_close_paren (s : BlockState) : BlockState :=
  let s := s.clear_pending_state
  if s.base.paren_depth = 0 then (s.push ')').set_first false
  else
    let subquery_base := s.base_indent
    let was_subquery := s.base.is_subquery_paren.headD false
    let s := { s with base :=
      { s.base with is_subquery_paren := s.base.is_subquery_paren.tail,
                    paren_depth := s.base.paren_depth - 1 } }
    if was_subquery then
      let outer_base := s.base_indent
      let s := { s with indent_depth := outer_base }
      let s := (s.write_newline_at subquery_base).push ')'
      s.set_first false
    else if 0 < s.base.inline_paren_depth then
      let s := { s with base :=
        { s.base with inline_paren_depth := s.base.inline_paren_depth - 1 } }
      (s.push ')').set_first false
    else
      let base := s.base_indent
      let s := (s.write_newline_at base).push ')'
      ({ s with indent_depth := base }).set_first false

def block_format_semicolon (s : BlockState) : BlockState :=
  let s := s.clear_pending_state
  let s := ((s.push ';').push '\n').push '\n'
  let s := { s with indent_depth := 0 }
  { s with base :=
    { s.base with clause_context := .None, prev_was_ddl_starter := false,
                  is_first_token := true } }

def block_format_value (s : BlockState) (text : String)
    (prev : Option FToken) (token : FToken) : BlockState :=
  if s.base.is_inline then
    let s := s.clear_pending_state
    let s := if needs_space_before token prev then s.push ' ' else s
    (s.push_str text).set_first false
  else if s.base.prev_was_ddl_starter then
    let s := ((s.push ' ').push_str text).set_first false
    let s := { s with base :=
      { s.base with prev_was_ddl_starter := false } }
    s.clear_pending_state
  else
    match block_emit_clause_content s text with
    | some s2 => { s2.set_first false with after_comma_newline := false }
    | none =>
      if s.after_comma_newline then
        let s := { s with after_comma_newline := false }
        (s.push_str text).set_first false
      else
        let s := if needs_space_before token prev then s.push ' ' else s
        (s.push_str text).set_first false

def block_finalize (s : BlockState) : List Char := rust_trim_end s.base.output

/-- The block-indented engine: basic.rs (`Trailing`) / dataops.rs
(`Leading`). -/
def blockEngine (cs : CommaStyle) (opts : FormatOptions) :
    Engine BlockState where
  getBase := BlockState.base
  setBase := fun s b => { s with base := b }
  format_keyword := block_format_keyword opts
  format_comma := block_format_comma cs
  format_open_paren := block_format_open_paren
  format_close_paren := fun s => block_format_close_paren s
  format_semicolon := block_format_semicolon
  format_value := block_format_value
  on_comment := BlockState.clear_pending_state
  on_dot := fun s => { s with after_comma_newline := false }
  finalize_output := block_finalize

/-! ### Column-aligned engine (src/formatter/aligned.rs) -/

structure AlignedState where
  base : FormatterBase
  base_col : Nat
  base_stack : List (Nat × ClauseContext)
  between_depth : Nat
  in_cte_header : Bool
  after_leading_comma : Bool
  deriving DecidableEq, Repr

def AlignedState.new : AlignedState :=
  ⟨FormatterBase.new, 0, [], 0, false, false⟩

def AlignedState.push (s : AlignedState) (c : Char) : AlignedState :=
  { s with base := s.base.push c }

def AlignedState.push_str (s : AlignedState) (t : String) : AlignedState :=
  { s with base := s.base.push_str t }

def AlignedState.set_first (s : AlignedState) (v : Bool) : AlignedState :=
  { s with base := { s.base with is_first_token := v } }

/-- `keyword_padding`: pre-keyword spaces so the right edge aligns
(`Nat` subtraction is Rust `saturating_sub`). -/
def keyword_padding (base_col : Nat) (kw : KeywordKind) : Nat :=
  let len := kw.as_str.length
  if kw.is_join_keyword then (base_col + 11) - len
  else if 6 < len then base_col + 1
  else (base_col + 6) - len

def AlignedState.write_padding (s : AlignedState) (n : Nat) : AlignedState :=
  { s with base :=
    { s.base with output := s.base.output ++ List.replicate n ' ' } }

def aligned_write_keyword_on_newline (opts : FormatOptions)
    (s : AlignedState) (kw : KeywordKind) : AlignedState :=
  let kw_str := keyword_str opts kw
  let padding := keyword_padding s.base_col kw
  let s := if !s.base.is_first_token then s.push '\n' else s
  let s := s.write_padding padding
  (s.push_str kw_str).set_first false

def aligned_write_leading_comma (s : AlignedState) : AlignedState :=
  let s := s.push '\n'
  let s := s.write_padding (s.base_col + 7)
  let s := s.push_str (", ")
  { s with after_leading_comma := true }

def aligned_format_ddl_keyword (opts : FormatOptions) (s : AlignedState)
    (kw : KeywordKind) : AlignedState :=
  let s := aligned_write_keyword_on_newline opts s kw
  { s with base :=
    { s.base with clause_context := .Ddl, prev_was_ddl_starter := true } }

def aligned_format_with_keyword (opts : FormatOptions) (s : AlignedState) :
    AlignedState :=
  let kw_str := keyword_str opts .With
  let s := if !s.base.is_first_token then s.push '\n' else s
  let s := (s.push_str kw_str).set_first false
  let s := { s with base := { s.base with clause_context := .Cte } }
  { s with in_cte_header := true }

def aligned_format_clause_starter (opts : FormatOptions) (s : AlignedState)
    (kw : KeywordKind) : AlignedState :=
  let s :=
    if (kw = .Union || kw = .UnionAll) && !s.base.is_first_token then
      s.push '\n'
    else s
  let s := aligned_write_keyword_on_newline opts s kw
  let s := if kw = .Union || kw = .UnionAll then s.push '\n' else s
  { s with base :=
    { s.base with clause_context := clause_context_from_keyword kw } }

def aligned_format_join_keyword (opts : FormatOptions) (s : AlignedState)
    (kw : KeywordKind) : AlignedState :=
  let s := aligned_write_keyword_on_newline opts s kw
  { s with base := { s.base with clause_context := .Join } }

def aligned_format_order_modifier (opts : FormatOptions) (s : AlignedState)
    (kw : KeywordKind) : AlignedState :=
  let s := aligned_write_keyword_on_newline opts s kw
  let ctx : ClauseContext :=
    match kw with
    | .GroupBy => .GroupBy
    | .OrderBy => .OrderBy
    | _ => .Other
  { s with base := { s.base with clause_context := ctx } }

def aligned_format_sub_clause (opts : FormatOptions) (s : AlignedState)
    (kw : KeywordKind) (prev : Option FToken) : AlignedState :=
  if kw = .And ∧ 0 < s.between_depth then
    let s := { s with between_depth := s.between_depth - 1 }
    let s :=
      if needs_space_before (.Keyword kw) prev then s.push ' ' else s
    let kw_str := keyword_str opts kw
    (s.push_str kw_str).set_first false
  else aligned_write_keyword_on_newline opts s kw

def aligned_format_other_keyword (s : AlignedState) (kw : KeywordKind)
    (kw_str : String) (prev : Option FToken) : AlignedState :=
  let s :=
    if kw = .Between then { s with between_depth := s.between_depth + 1 }
    else s
  if s.after_leading_comma then
    let s := { s with after_leading_comma := false }
    (s.push_str kw_str).set_first false
  else
    let s :=
      if needs_space_before (.Keyword kw) prev then s.push ' ' else s
    (s.push_str kw_str).set_first false

def aligned_format_keyword (opts : FormatOptions) (s : AlignedState)
    (kw : KeywordKind) (prev : Option FToken) : AlignedState :=
  let kw_str := keyword_str opts kw
  if s.base.is_inline then
    let s :=
      if needs_space_before (.Keyword kw) prev then s.push ' ' else s
    (s.push_str kw_str).set_first false
  else if kw.is_ddl_starter then aligned_format_ddl_keyword opts s kw
  else if kw = .With then aligned_format_with_keyword opts s
  else if kw.is_clause_starter then aligned_format_clause_starter opts s kw
  else if kw.is_join_keyword then aligned_format_join_keyword opts s kw
  else if kw.is_order_modifier then aligned_format_order_modifier opts s kw
  else if kw = .On || kw = .And || kw = .Or then
    aligned_format_sub_clause opts s kw prev
  else aligned_format_other_keyword s kw kw_str prev

def aligned_format_comma (s : AlignedState) : AlignedState :=
  if s.base.is_inline then (s.push ',').set_first false
  else
    let s :=
      match s.base.clause_context with
      | .Select | .GroupBy | .OrderBy | .Set | .Ddl =>
        aligned_write_leading_comma s
      | .Cte =>
        let s := s.push '\n'
        let s := s.write_padding s.base_col
        let s := s.push_str (", ")
        { s with in_cte_header := true, after_leading_comma := true }
      | _ => s.push ','
    s.set_first false

def aligned_format_open_paren (s : AlignedState)
    (next prev : Option FToken) : AlignedState :=
  if paren_is_subquery next = true then
    let s := { s with base :=
      { s.base with paren_depth := s.base.paren_depth + 1,
                    is_subquery_paren := true :: s.base.is_subquery_paren } }
    let s := { s with base_stack :=
      (s.base_col, s.base.clause_context) :: s.base_stack }
    let s :=
      if s.in_cte_header then
        { s with in_cte_header := false, base_col := s.base_col + 2 }
      else { s with base_col := s.base_col + 2 }
    let s :=
      if s.after_leading_comma then { s with after_leading_comma := false }
      else if needs_space_before .OpenParen prev then s.push ' '
      else s
    (s.push '(').set_first false
  else
    let s := { s with base :=
      { s.base with paren_depth := s.base.paren_depth + 1,
                    is_subquery_paren := false :: s.base.is_subquery_paren,
                    inline_paren_depth := s.base.inline_paren_depth + 1 } }
    let s :=
      if s.after_leading_comma then { s with after_leading_comma := false }
      else
        match prev with
        | some (.Identifier _) => s
        | _ => if needs_space_before .OpenParen prev then s.push ' ' else s
    (s.push '(').set_first false

def aligned_format_close_paren (s : AlignedState) : AlignedState :=
  if s.base.paren_depth = 0 then (s.push ')').set_first false
  else
    let was_subquery := s.base.is_subquery_paren.headD false
    let s := { s with base :=
      { s.base with is_subquery_paren := s.base.is_subquery_paren.tail,
                    paren_depth := s.base.paren_depth - 1 } }
    if was_subquery then
      let old := s.base_stack.headD (0, .None)
      let s := { s with base_stack := s.base_stack.tail }
      let s := s.push '\n'
      let s :=
        if old.2 = .Cte ∨ old.2 = .From then s.write_padding old.1
        else s.write_padding (old.1 + 2)
      let s := s.push ')'
      let s := { s with base_col := old.1 }
      let s := { s with base :=
        { s.base with clause_context := old.2 } }
      s.set_first false
    else if 0 < s.base.inline_paren_depth then
      let s := { s with base :=
        { s.base with inline_paren_depth := s.base.inline_paren_depth - 1 } }
      (s.push ')').set_first false
    else (s.push ')').set_first false

def aligned_format_semicolon (s : AlignedState) : AlignedState :=
  let s := ((s.push ';').push '\n').push '\n'
  let s := { s with base_col := 0 }
  { s with base :=
    { s.base with clause_context := .None, prev_was_ddl_starter := false,
                  is_first_token := true } }

def aligned_format_value (s : AlignedState) (text : String)
    (prev : Option FToken) (token : FToken) : AlignedState :=
  if s.base.prev_was_ddl_starter then
    let s := ((s.push ' ').push_str text)
    let s := { s with base :=
      { s.base with prev_was_ddl_starter := false } }
    s.set_first false
  else if s.after_leading_comma then
    let s := { s with after_leading_comma := false }
    (s.push_str text).set_first false
  else
    let s := if needs_space_before token prev then s.push ' ' else s
    (s.push_str text).set_first false

/-- `AlignedFormatter::finalize_output`: re-split lines, rejoin, trim. -/
def aligned_finalize (s : AlignedState) : List Char :=
  rust_trim_end ((lines_rust s.base.output).intersperse ['\n']).flatten

def alignedEngine (opts : FormatOptions) : Engine AlignedState where
  getBase := AlignedState.base
  setBase := fun s b => { s with base := b }
  format_keyword := aligned_format_keyword opts
  format_comma := aligned_format_comma
  format_open_paren := aligned_format_open_paren
  format_close_paren := aligned_format_close_paren
  format_semicolon := aligned_format_semicolon
  format_value := aligned_format_value
  on_comment := id
  on_dot := id
  finalize_output := aligned_finalize

/-! ### Style dispatch (src/formatter/mod.rs `format_tokens`) -/

/-- basic.rs entry point. -/
def basic_format (tokens : List FToken) (opts : FormatOptions) :
    List Char :=
  run_format (blockEngine .Trailing opts) BlockState.new tokens

/-- dataops.rs entry point. -/
def dataops_format (tokens : List FToken) (opts : FormatOptions) :
    List Char :=
  run_format (blockEngine .Leading opts) BlockState.new tokens

/-- aligned.rs entry point. -/
def aligned_format (tokens : List FToken) (opts : FormatOptions) :
    List Char :=
  run_format (alignedEngine opts) AlignedState.new tokens

/-- Modelled from the spec: `formatter/mod.rs` declares `mod streamline;`
and dispatches `FormatStyle::Streamline` to `streamline::format`, but
`src/formatter/streamline.rs` is not in the source tree. Spec §4.4 describes
the block-indented policy family, parameterized by indent unit and comma
placement; streamline is modelled as the block-indented engine with
trailing commas and the default four-space indent unit. -/
def streamline_format (tokens : List FToken) (opts : FormatOptions) :
    List Char :=
  run_format (blockEngine .Trailing opts) BlockState.new tokens

/-- `format_tokens` from src/formatter/mod.rs. -/
def format_tokens (tokens : List FToken) (opts : FormatOptions) :
    List Char :=
  if tokens = [] then []
  else
    match opts.style with
    | .Basic => basic_format tokens opts
    | .Streamline => streamline_format tokens opts
    | .Aligned => aligned_format tokens opts
    | .Dataops => dataops_format tokens opts

/-- The full pipeline of the spec data flow: raw bytes → lexer → layout
engine → text. -/
def format_sql (input : List Nat) (opts : FormatOptions) : List Char :=
  format_tokens ((tokenize input).map BToken.toF) opts

/-- The UTF-8 bytes of an ASCII string (test inputs are ASCII). -/
def asciiBytes (s : String) : List Nat := s.data.map Char.toNat

/-! ### Auxiliary predicates for the verification statements -/

/-- UTF-8 continuation byte (`0b10xxxxxx`). -/
def isUtf8ContinuationByte (b : Nat) : Bool := 128 ≤ b && b < 192

/-- Rust `str::is_char_boundary` on the UTF-8 byte sequence: slicing a
`&str` at a non-boundary index panics. -/
def rust_is_char_boundary (bytes : List Nat) (i : Nat) : Bool :=
  if i = 0 then true
  else if i = bytes.length then true
  else if bytes.length < i then false
  else !isUtf8ContinuationByte (bytes.getD i 0)

/-- The invariant of spec §3: the subquery-marker stack length equals the
open-paren depth counter. -/
def StackInv (b : FormatterBase) : Prop :=
  b.is_subquery_paren.length = b.paren_depth

instance (b : FormatterBase) : Decidable (StackInv b) := by
  unfold StackInv
  infer_instance

/-- Leading-space count of an output line. -/
def lineIndent (l : List Char) : Nat := (l.takeWhile fun c => c = ' ').length

/-! ### Lossless-span facts about the scanners -/

theorem findBlockEnd_spec (n : Nat) :
    ∀ l : List Nat, l.length ≤ n →
      ((findBlockEnd l).2 = none → l = (findBlockEnd l).1) ∧
      (∀ r, (findBlockEnd l).2 = some r →
        l = (findBlockEnd l).1 ++ 42 :: 47 :: r) := by
  induction n with
  | zero =>
    intro l hl
    have hnil : l = [] := List.length_eq_zero.mp (Nat.le_zero.mp hl)
    subst hnil
    refine ⟨fun _ => rfl, fun r h => ?_⟩
    simp [findBlockEnd] at h
  | succ n ih =>
    intro l hl
    match l with
    | [] => exact ⟨fun _ => rfl, fun r h => by simp [findBlockEnd] at h⟩
    | [b] => exact ⟨fun _ => rfl, fun r h => by simp [findBlockEnd] at h⟩
    | b :: x :: rest =>
      have hrec := ih (x :: rest) (by simp at hl ⊢; omega)
      by_cases hbc : b = 42 ∧ x = 47
      · have heq : findBlockEnd (b :: x :: rest) = ([], some rest) := by
          rw [findBlockEnd, if_pos hbc]
        rw [heq]
        refine ⟨fun h => by simp at h, fun r h => ?_⟩
        simp at h
        subst h
        simp [hbc.1, hbc.2]
      · have heq : findBlockEnd (b :: x :: rest) =
            (b :: (findBlockEnd (x :: rest)).1,
             (findBlockEnd (x :: rest)).2) := by
          rw [findBlockEnd, if_neg hbc]
        rw [heq]
        refine ⟨fun h => ?_, fun r h => ?_⟩
        · rw [← hrec.1 h]
        · rw [List.cons_append, ← hrec.2 r h]

theorem findStringEnd_spec (n : Nat) :
    ∀ l : List Nat, l.length ≤ n →
      ((findStringEnd l).2 = none → l = (findStringEnd l).1) ∧
      (∀ r, (findStringEnd l).2 = some r →
        l = (findStringEnd l).1 ++ 39 :: r) := by
  induction n with
  | zero =>
    intro l hl
    have hnil : l = [] := List.length_eq_zero.mp (Nat.le_zero.mp hl)
    subst hnil
    exact ⟨fun _ => rfl, fun r h => by simp [findStringEnd] at h⟩
  | succ n ih =>
    intro l hl
    match l with
    | [] => exact ⟨fun _ => rfl, fun r h => by simp [findStringEnd] at h⟩
    | [b] =>
      by_cases hb : b = 39
      · have heq : findStringEnd [b] = ([], some []) := by
          rw [findStringEnd, if_pos hb]
        rw [heq]
        refine ⟨fun h => by simp at h, fun r h => ?_⟩
        simp at h
        subst h
        simp [hb]
      · have heq : findStringEnd [b] = ([b], none) := by
          rw [findStringEnd, if_neg hb]
        rw [heq]
        exact ⟨fun _ => rfl, fun r h => by simp at h⟩
    | b :: x :: rest =>
      by_cases hb : b = 39
      · by_cases hx : x = 39
        · have hrec := ih rest (by simp at hl ⊢; omega)
          have heq : findStringEnd (b :: x :: rest) =
              (39 :: 39 :: (findStringEnd rest).1,
               (findStringEnd rest).2) := by
            rw [findStringEnd, if_pos hb, if_pos hx]
          rw [heq]
          subst hb
          subst hx
          refine ⟨fun h => ?_, fun r h => ?_⟩
          · rw [← hrec.1 h]
          · rw [List.cons_append, List.cons_append, ← hrec.2 r h]
        · have heq : findStringEnd (b :: x :: rest) =
              ([], some (x :: rest)) := by
            rw [findStringEnd, if_pos hb, if_neg hx]
          rw [heq]
          refine ⟨fun h => by simp at h, fun r h => ?_⟩
          simp at h
          subst h
          simp [hb]
      · have hrec := ih (x :: rest) (by simp at hl ⊢; omega)
        have heq : findStringEnd (b :: x :: rest) =
            (b :: (findStringEnd (x :: rest)).1,
             (findStringEnd (x :: rest)).2) := by
          rw [findStringEnd, if_neg hb]
        rw [heq]
        refine ⟨fun h => ?_, fun r h => ?_⟩
        · rw [← hrec.1 h]
        · rw [List.cons_append, ← hrec.2 r h]

theorem findQuotedEnd_spec :
    ∀ l : List Nat,
      ((findQuotedEnd l).2 = none → l = (findQuotedEnd l).1) ∧
      (∀ r, (findQuotedEnd l).2 = some r →
        l = (findQuotedEnd l).1 ++ 34 :: r) := by
  intro l
  induction l with
  | nil => exact ⟨fun _ => rfl, fun r h => by simp [findQuotedEnd] at h⟩
  | cons b rest ih =>
    by_cases hb : b = 34
    · have heq : findQuotedEnd (b :: rest) = ([], some rest) := by
        rw [findQuotedEnd, if_pos hb]
      rw [heq]
      refine ⟨fun h => by simp at h, fun r h => ?_⟩
      simp at h
      subst h
      simp [hb]
    · have heq : findQuotedEnd (b :: rest) =
          (b :: (findQuotedEnd rest).1, (findQuotedEnd rest).2) := by
        rw [findQuotedEnd, if_neg hb]
      rw [heq]
      refine ⟨fun h => ?_, fun r h => ?_⟩
      · rw [← ih.1 h]
      · rw [List.cons_append, ← ih.2 r h]

theorem findTemplateEnd_spec (n : Nat) :
    ∀ l : List Nat, l.length ≤ n →
      ∀ c r, findTemplateEnd l = some (c, r) → l = c ++ 125 :: 125 :: r := by
  induction n with
  | zero =>
    intro l hl c r h
    have hnil : l = [] := List.length_eq_zero.mp (Nat.le_zero.mp hl)
    subst hnil
    simp [findTemplateEnd] at h
  | succ n ih =>
    intro l hl c r h
    match l with
    | [] => simp [findTemplateEnd] at h
    | [b] => simp [findTemplateEnd] at h
    | b :: x :: rest =>
      by_cases hbc : b = 125 ∧ x = 125
      · rw [findTemplateEnd, if_pos hbc] at h
        simp at h
        rw [h.1, ← h.2, hbc.1, hbc.2]
        simp
      · rw [findTemplateEnd, if_neg hbc] at h
        cases hp : findTemplateEnd (x :: rest) with
        | none => rw [hp] at h; simp at h
        | some p =>
          rw [hp] at h
          simp at h
          have hx := ih (x :: rest) (by simp at hl ⊢; omega) p.1 p.2
            (by rw [hp])
          rw [← h.1, ← h.2, List.cons_append, ← hx]

/-! ### Soundness of one lexer step: the consumed span rebuilds the input -/

theorem lex_operator_append (l : List Nat) :
    (lex_operator l).1 ++ (lex_operator l).2 = l := by
  rw [lex_operator]
  split_ifs <;> exact List.take_append_drop _ _

theorem lex_operator_ne {l : List Nat} (hl : l ≠ []) :
    (lex_operator l).1 ≠ [] := by
  rw [lex_operator]
  split_ifs <;> simp [List.take_eq_nil_iff, hl]

theorem lex_number_append (l : List Nat) :
    (lex_number l).1 ++ (lex_number l).2 = l := by
  rw [lex_number]
  split_ifs with hc
  · obtain ⟨h46, _⟩ := hc
    have hd : l.dropWhile isDigitB = 46 :: (l.dropWhile isDigitB).tail := by
      cases hx : l.dropWhile isDigitB with
      | nil => rw [hx] at h46; simp at h46
      | cons a t =>
        rw [hx] at h46
        simp at h46
        simp [h46]
    have h1 := List.takeWhile_append_dropWhile (p := isDigitB) (l := l)
    have h2 := List.takeWhile_append_dropWhile (p := isDigitB)
      (l := (l.dropWhile isDigitB).tail)
    calc (l.takeWhile isDigitB ++
            46 :: (l.dropWhile isDigitB).tail.takeWhile isDigitB,
          (l.dropWhile isDigitB).tail.dropWhile isDigitB).1 ++
         (l.takeWhile isDigitB ++
            46 :: (l.dropWhile isDigitB).tail.takeWhile isDigitB,
          (l.dropWhile isDigitB).tail.dropWhile isDigitB).2
        = l.takeWhile isDigitB ++
            46 :: ((l.dropWhile isDigitB).tail.takeWhile isDigitB ++
              (l.dropWhile isDigitB).tail.dropWhile isDigitB) := by simp
      _ = l.takeWhile isDigitB ++ 46 :: (l.dropWhile isDigitB).tail := by
          rw [h2]
      _ = l.takeWhile isDigitB ++ l.dropWhile isDigitB := by rw [← hd]
      _ = l := h1
  · exact List.takeWhile_append_dropWhile ..

theorem peek_word_after_whitespace_sound {l ws w r : List Nat}
    (h : peek_word_after_whitespace l = some (ws, w, r)) :
    ws ++ w ++ r = l ∧ w ≠ [] := by
  rw [peek_word_after_whitespace] at h
  cases hdw : l.dropWhile isWsB with
  | nil => rw [hdw] at h; simp at h
  | cons a t =>
    rw [hdw] at h
    simp only [List.head?_cons] at h
    by_cases hb : isWordStartB a
    · rw [if_pos hb] at h
      simp only [Option.some.injEq, Prod.mk.injEq] at h
      obtain ⟨rfl, rfl, rfl⟩ := h
      have hw : isWordB a = true := by
        rw [isWordB]
        rw [isWordStartB] at hb
        rcases Bool.or_eq_true_iff.mp hb with h1 | h1
        · simp [h1]
        · simp [h1]
      refine ⟨?_, ?_⟩
      · rw [List.append_assoc,
          List.takeWhile_append_dropWhile (p := isWordB) (l := a :: t),
          ← hdw, List.takeWhile_append_dropWhile]
      · rw [List.takeWhile_cons_of_pos hw]
        simp
    · rw [if_neg hb] at h
      simp at h

theorem try_two_word_sound {st comb : KeywordKind} {exp : String}
    {rest : List Nat} {t : BToken} {ex r : List Nat}
    (h : try_two_word st exp comb rest = (t, ex, r)) : ex ++ r = rest := by
  rw [try_two_word] at h
  split at h
  · rename_i ws w r0 heq
    have hsp := peek_word_after_whitespace_sound heq
    split_ifs at h <;> simp only [Prod.mk.injEq] at h
    · rw [← h.2.1, ← h.2.2, ← hsp.1]
    · simp [← h.2.1, ← h.2.2]
  · simp only [Prod.mk.injEq] at h
    simp [← h.2.1, ← h.2.2]

theorem try_keyword_combination_sound {st dc fc : KeywordKind}
    {dw mw fw : String} {rest : List Nat} {t : BToken} {ex r : List Nat}
    (h : try_keyword_combination st dw dc mw fw fc rest = (t, ex, r)) :
    ex ++ r = rest := by
  rw [try_keyword_combination] at h
  split at h
  · rename_i ws w r0 heq
    have hsp := peek_word_after_whitespace_sound heq
    split_ifs at h with hd hm
    · simp only [Prod.mk.injEq] at h
      rw [← h.2.1, ← h.2.2, ← hsp.1]
    · split at h
      · rename_i ws2 w2 r2 heq2
        have hsp2 := peek_word_after_whitespace_sound heq2
        split_ifs at h <;> simp only [Prod.mk.injEq] at h
        · rw [← h.2.1, ← h.2.2, ← hsp.1, ← hsp2.1]
          simp
        · simp [← h.2.1, ← h.2.2]
      · simp only [Prod.mk.injEq] at h
        simp [← h.2.1, ← h.2.2]
    · simp only [Prod.mk.injEq] at h
      simp [← h.2.1, ← h.2.2]
  · simp only [Prod.mk.injEq] at h
    simp [← h.2.1, ← h.2.2]

theorem try_combine_keyword_sound {kind : KeywordKind} {rest : List Nat}
    {t : BToken} {ex r : List Nat}
    (h : try_combine_keyword kind rest = (t, ex, r)) : ex ++ r = rest := by
  rw [try_combine_keyword] at h
  split at h
  · exact try_two_word_sound h
  · split_ifs at h
    · exact try_keyword_combination_sound h
    · exact try_keyword_combination_sound h
    · simp only [Prod.mk.injEq] at h
      simp [← h.2.1, ← h.2.2]

theorem lex_word_sound {l : List Nat} {t : BToken} {c r : List Nat}
    (hst : (l.head?.map isWordStartB).getD false = true)
    (h : lex_word l = (t, c, r)) : c ++ r = l ∧ c ≠ [] := by
  have happ : c ++ r = l := by
    rw [lex_word] at h
    split at h
    · rename_i kind heq
      simp only [Prod.mk.injEq] at h
      have hc := @try_combine_keyword_sound kind (l.dropWhile isWordB)
        (try_combine_keyword kind (l.dropWhile isWordB)).1
        (try_combine_keyword kind (l.dropWhile isWordB)).2.1
        (try_combine_keyword kind (l.dropWhile isWordB)).2.2 rfl
      rw [← h.2.1, ← h.2.2, List.append_assoc, hc]
      exact List.takeWhile_append_dropWhile ..
    · simp only [Prod.mk.injEq] at h
      rw [← h.2.1, ← h.2.2]
      exact List.takeWhile_append_dropWhile ..
  refine ⟨happ, ?_⟩
  cases l with
  | nil => simp at hst
  | cons b t0 =>
    simp at hst
    have hw : isWordB b = true := by
      rw [isWordStartB] at hst
      rw [isWordB]
      rcases Bool.or_eq_true_iff.mp hst with h1 | h1 <;> simp [h1]
    rw [lex_word] at h
    simp only [List.takeWhile_cons_of_pos hw] at h
    split at h
    · simp only [Prod.mk.injEq] at h
      rw [← h.2.1]
      simp
    · simp only [Prod.mk.injEq] at h
      rw [← h.2.1]
      simp

set_option maxHeartbeats 1600000 in
theorem next_token_sound {l : List Nat} {t : BToken} {c r2 : List Nat}
    (h : next_token l = some (t, c, r2)) : c ++ r2 = l ∧ c ≠ [] := by
  cases l with
  | nil => simp [next_token] at h
  | cons b r =>
    rw [next_token] at h
    by_cases hws : isWsB b = true
    · rw [if_pos hws] at h
      simp only [Option.some.injEq, Prod.mk.injEq] at h
      obtain ⟨-, rfl, rfl⟩ := h
      refine ⟨List.takeWhile_append_dropWhile .., ?_⟩
      rw [List.takeWhile_cons_of_pos hws]
      simp
    · rw [if_neg hws] at h
      by_cases hlc : b = 45 ∧ r.head? = some 45
      · rw [if_pos hlc] at h
        obtain ⟨rfl, hr45⟩ := hlc
        cases r with
        | nil => simp at hr45
        | cons a tl =>
          simp only [List.head?_cons, Option.some.injEq] at hr45
          subst hr45
          simp only [List.tail_cons, Option.some.injEq, Prod.mk.injEq] at h
          obtain ⟨-, rfl, rfl⟩ := h
          constructor
          · simp [List.takeWhile_append_dropWhile]
          · simp
      · rw [if_neg hlc] at h
        by_cases hbc : b = 47 ∧ r.head? = some 42
        · rw [if_pos hbc] at h
          obtain ⟨rfl, hr42⟩ := hbc
          cases r with
          | nil => simp at hr42
          | cons a tl =>
            simp only [List.head?_cons, Option.some.injEq] at hr42
            subst hr42
            simp only [List.tail_cons] at h
            have hspec := findBlockEnd_spec tl.length tl le_rfl
            cases hfb : (findBlockEnd tl).2 with
            | none =>
              rw [hfb] at h
              simp only [Option.some.injEq, Prod.mk.injEq] at h
              obtain ⟨-, rfl, rfl⟩ := h
              constructor
              · simp [← hspec.1 hfb]
              · simp
            | some rest =>
              rw [hfb] at h
              simp only [Option.some.injEq, Prod.mk.injEq] at h
              obtain ⟨-, rfl, rfl⟩ := h
              constructor
              · have hx := hspec.2 rest hfb
                simp only [List.cons_append, List.append_assoc, List.nil_append]
                rw [← hx]
              · simp
        · rw [if_neg hbc] at h
          by_cases hstr : b = 39
          · rw [if_pos hstr] at h
            subst hstr
            have hspec := findStringEnd_spec r.length r le_rfl
            cases hfs : (findStringEnd r).2 with
            | none =>
              simp only [hfs] at h
              simp only [Option.some.injEq, Prod.mk.injEq] at h
              obtain ⟨-, rfl, rfl⟩ := h
              constructor
              · simp [← hspec.1 hfs]
              · simp
            | some rest =>
              simp only [hfs] at h
              simp only [Option.some.injEq, Prod.mk.injEq] at h
              obtain ⟨-, rfl, rfl⟩ := h
              constructor
              · have hx := hspec.2 rest hfs
                simp only [List.cons_append, List.append_assoc, List.nil_append]
                rw [← hx]
              · simp
          · rw [if_neg hstr] at h
            by_cases hq : b = 34
            · rw [if_pos hq] at h
              subst hq
              have hspec := findQuotedEnd_spec r
              cases hfq : (findQuotedEnd r).2 with
              | none =>
                simp only [hfq] at h
                simp only [Option.some.injEq, Prod.mk.injEq] at h
                obtain ⟨-, rfl, rfl⟩ := h
                constructor
                · simp [← hspec.1 hfq]
                · simp
              | some rest =>
                simp only [hfq] at h
                simp only [Option.some.injEq, Prod.mk.injEq] at h
                obtain ⟨-, rfl, rfl⟩ := h
                constructor
                · have hx := hspec.2 rest hfq
                  simp only [List.cons_append, List.append_assoc, List.nil_append]
                  rw [← hx]
                · simp
            · rw [if_neg hq] at h
              by_cases hdig : isDigitB b = true
              · rw [if_pos hdig] at h
                simp only [Option.some.injEq, Prod.mk.injEq] at h
                obtain ⟨-, rfl, rfl⟩ := h
                refine ⟨lex_number_append _, ?_⟩
                rw [lex_number]
                split_ifs <;> simp [List.takeWhile_cons_of_pos hdig]
              · rw [if_neg hdig] at h
                by_cases hdd : b = 46 ∧ (Option.map isDigitB r.head?).getD false = true
                · rw [if_pos hdd] at h
                  obtain ⟨rfl, hd2⟩ := hdd
                  simp only [Option.some.injEq, Prod.mk.injEq] at h
                  obtain ⟨-, rfl, rfl⟩ := h
                  have h46 : isDigitB 46 = false := by decide
                  refine ⟨lex_number_append _, ?_⟩
                  rw [lex_number]
                  have hdw : (46 :: r).dropWhile isDigitB = 46 :: r :=
                    List.dropWhile_cons_of_neg (by simp [h46])
                  rw [hdw]
                  rw [if_pos (show (46 :: r).head? = some 46 ∧
                    (((46 :: r).tail.head?).map isDigitB).getD false = true
                    from ⟨rfl, hd2⟩)]
                  have htw : (46 :: r).takeWhile isDigitB = [] :=
                    List.takeWhile_cons_of_neg (by simp [h46])
                  simp [htw]
                · rw [if_neg hdd] at h
                  by_cases hcm : b = 44
                  · rw [if_pos hcm] at h
                    subst hcm
                    simp only [Option.some.injEq, Prod.mk.injEq] at h
                    obtain ⟨-, rfl, rfl⟩ := h
                    exact ⟨rfl, by simp⟩
                  · rw [if_neg hcm] at h
                    by_cases hsc : b = 59
                    · rw [if_pos hsc] at h
                      subst hsc
                      simp only [Option.some.injEq, Prod.mk.injEq] at h
                      obtain ⟨-, rfl, rfl⟩ := h
                      exact ⟨rfl, by simp⟩
                    · rw [if_neg hsc] at h
                      by_cases hdt : b = 46
                      · rw [if_pos hdt] at h
                        subst hdt
                        simp only [Option.some.injEq, Prod.mk.injEq] at h
                        obtain ⟨-, rfl, rfl⟩ := h
                        exact ⟨rfl, by simp⟩
                      · rw [if_neg hdt] at h
                        by_cases hop : b = 40
                        · rw [if_pos hop] at h
                          subst hop
                          simp only [Option.some.injEq, Prod.mk.injEq] at h
                          obtain ⟨-, rfl, rfl⟩ := h
                          exact ⟨rfl, by simp⟩
                        · rw [if_neg hop] at h
                          by_cases hcp : b = 41
                          · rw [if_pos hcp] at h
                            subst hcp
                            simp only [Option.some.injEq, Prod.mk.injEq] at h
                            obtain ⟨-, rfl, rfl⟩ := h
                            exact ⟨rfl, by simp⟩
                          · rw [if_neg hcp] at h
                            by_cases htp : b = 123 ∧ r.head? = some 123
                            · rw [if_pos htp] at h
                              obtain ⟨rfl, hr123⟩ := htp
                              cases r with
                              | nil => simp at hr123
                              | cons a tl =>
                                simp only [List.head?_cons, Option.some.injEq] at hr123
                                subst hr123
                                simp only [List.tail_cons] at h
                                cases hft : findTemplateEnd tl with
                                | none =>
                                  rw [hft] at h
                                  simp only [Option.some.injEq, Prod.mk.injEq] at h
                                  obtain ⟨-, rfl, rfl⟩ := h
                                  exact ⟨rfl, by simp⟩
                                | some p =>
                                  obtain ⟨content, rest⟩ := p
                                  rw [hft] at h
                                  simp only [Option.some.injEq, Prod.mk.injEq] at h
                                  obtain ⟨-, rfl, rfl⟩ := h
                                  constructor
                                  · have hx := findTemplateEnd_spec tl.length tl le_rfl content rest hft
                                    simp only [List.cons_append, List.append_assoc, List.nil_append]
                                    rw [← hx]
                                  · simp
                            · rw [if_neg htp] at h
                              by_cases hbr : b = 123 ∨ b = 125
                              · rw [if_pos hbr] at h
                                simp only [Option.some.injEq, Prod.mk.injEq] at h
                                obtain ⟨-, rfl, rfl⟩ := h
                                exact ⟨rfl, by simp⟩
                              · rw [if_neg hbr] at h
                                by_cases hops : isOpStartB b = true
                                · rw [if_pos hops] at h
                                  simp only [Option.some.injEq, Prod.mk.injEq] at h
                                  obtain ⟨-, rfl, rfl⟩ := h
                                  exact ⟨lex_operator_append _, lex_operator_ne (by simp)⟩
                                · rw [if_neg hops] at h
                                  by_cases hwd : isWordStartB b = true
                                  · rw [if_pos hwd] at h
                                    simp only [Option.some.injEq] at h
                                    exact lex_word_sound (by simp [hwd]) h
                                  · rw [if_neg hwd] at h
                                    simp only [Option.some.injEq, Prod.mk.injEq] at h
                                    obtain ⟨-, rfl, rfl⟩ := h
                                    exact ⟨rfl, by simp⟩

set_option maxHeartbeats 1600000 in
theorem next_token_ne_none (b : Nat) (r : List Nat) :
    next_token (b :: r) ≠ none := by
  rw [next_token]
  by_cases hx0 : isWsB b = true
  · rw [if_pos hx0]
    simp
  · rw [if_neg hx0]
    by_cases hx1 : b = 45 ∧ r.head? = some 45
    · rw [if_pos hx1]
      simp
    · rw [if_neg hx1]
      by_cases hx2 : b = 47 ∧ r.head? = some 42
      · rw [if_pos hx2]
        cases hfb : (findBlockEnd r.tail).2 <;> simp [hfb]
      · rw [if_neg hx2]
        by_cases hx3 : b = 39
        · rw [if_pos hx3]
          cases hfs : (findStringEnd r).2 <;> simp [hfs]
        · rw [if_neg hx3]
          by_cases hx4 : b = 34
          · rw [if_pos hx4]
            cases hfq : (findQuotedEnd r).2 <;> simp [hfq]
          · rw [if_neg hx4]
            by_cases hx5 : isDigitB b = true
            · rw [if_pos hx5]
              simp
            · rw [if_neg hx5]
              by_cases hx6 : b = 46 ∧ (Option.map isDigitB r.head?).getD false = true
              · rw [if_pos hx6]
                simp
              · rw [if_neg hx6]
                by_cases hx7 : b = 44
                · rw [if_pos hx7]
                  simp
                · rw [if_neg hx7]
                  by_cases hx8 : b = 59
                  · rw [if_pos hx8]
                    simp
                  · rw [if_neg hx8]
                    by_cases hx9 : b = 46
                    · rw [if_pos hx9]
                      simp
                    · rw [if_neg hx9]
                      by_cases hx10 : b = 40
                      · rw [if_pos hx10]
                        simp
                      · rw [if_neg hx10]
                        by_cases hx11 : b = 41
                        · rw [if_pos hx11]
                          simp
                        · rw [if_neg hx11]
                          by_cases hx12 : b = 123 ∧ r.head? = some 123
                          · rw [if_pos hx12]
                            cases hft : findTemplateEnd r.tail with
                              | none => simp [hft]
                              | some p =>
                                cases p with
                                | mk content rest => simp [hft]
                          · rw [if_neg hx12]
                            by_cases hx13 : b = 123 ∨ b = 125
                            · rw [if_pos hx13]
                              simp
                            · rw [if_neg hx13]
                              by_cases hx14 : isOpStartB b = true
                              · rw [if_pos hx14]
                                simp
                              · rw [if_neg hx14]
                                by_cases hx15 : isWordStartB b = true
                                · rw [if_pos hx15]
                                  simp
                                · rw [if_neg hx15]
                                  simp

theorem tokenizeSpansGo_join (fuel : Nat) :
    ∀ l : List Nat, l.length ≤ fuel →
      ((tokenizeSpansGo fuel l).map Prod.snd).flatten = l := by
  induction fuel with
  | zero =>
    intro l hl
    have hnil : l = [] := List.length_eq_zero.mp (Nat.le_zero.mp hl)
    subst hnil
    rfl
  | succ n ih =>
    intro l hl
    rw [tokenizeSpansGo]
    cases hn : next_token l with
    | none =>
      cases l with
      | nil => simp
      | cons b r => exact absurd hn (next_token_ne_none b r)
    | some p =>
      obtain ⟨t, c, r⟩ := p
      have hs := next_token_sound hn
      simp only [List.map_cons, List.flatten_cons]
      have hlen : r.length ≤ n := by
        have h1 : c.length + r.length = l.length := by
          rw [← hs.1]
          simp
        have h2 : 0 < c.length := List.length_pos.mpr hs.2
        omega
      rw [ih r hlen, hs.1]

/-! ### Helper-operation facts: output writers leave the paren state alone -/

@[simp] theorem push_base_is_subquery_paren (s : BlockState) (c : Char) :
    (s.push c).base.is_subquery_paren = s.base.is_subquery_paren := rfl

@[simp] theorem push_base_paren_depth (s : BlockState) (c : Char) :
    (s.push c).base.paren_depth = s.base.paren_depth := rfl

@[simp] theorem push_base_inline_paren_depth (s : BlockState) (c : Char) :
    (s.push c).base.inline_paren_depth = s.base.inline_paren_depth := rfl

@[simp] theorem push_str_base_is_subquery_paren (s : BlockState) (t : String) :
    (s.push_str t).base.is_subquery_paren = s.base.is_subquery_paren := rfl

@[simp] theorem push_str_base_paren_depth (s : BlockState) (t : String) :
    (s.push_str t).base.paren_depth = s.base.paren_depth := rfl

@[simp] theorem push_str_base_inline_paren_depth (s : BlockState) (t : String) :
    (s.push_str t).base.inline_paren_depth = s.base.inline_paren_depth := rfl

@[simp] theorem set_first_base_is_subquery_paren (s : BlockState) (v : Bool) :
    (s.set_first v).base.is_subquery_paren = s.base.is_subquery_paren := rfl

@[simp] theorem set_first_base_paren_depth (s : BlockState) (v : Bool) :
    (s.set_first v).base.paren_depth = s.base.paren_depth := rfl

@[simp] theorem set_first_base_inline_paren_depth (s : BlockState) (v : Bool) :
    (s.set_first v).base.inline_paren_depth = s.base.inline_paren_depth := rfl

@[simp] theorem write_newline_at_base_is_subquery_paren (s : BlockState) (d : Nat) :
    (s.write_newline_at d).base.is_subquery_paren = s.base.is_subquery_paren := rfl

@[simp] theorem write_newline_at_base_paren_depth (s : BlockState) (d : Nat) :
    (s.write_newline_at d).base.paren_depth = s.base.paren_depth := rfl

@[simp] theorem write_newline_at_base_inline_paren_depth (s : BlockState) (d : Nat) :
    (s.write_newline_at d).base.inline_paren_depth = s.base.inline_paren_depth := rfl

@[simp] theorem clear_pending_state_base_is_subquery_paren (s : BlockState) :
    (s.clear_pending_state).base.is_subquery_paren = s.base.is_subquery_paren := rfl

@[simp] theorem clear_pending_state_base_paren_depth (s : BlockState) :
    (s.clear_pending_state).base.paren_depth = s.base.paren_depth := rfl

@[simp] theorem clear_pending_state_base_inline_paren_depth (s : BlockState) :
    (s.clear_pending_state).base.inline_paren_depth = s.base.inline_paren_depth := rfl

@[simp] theorem apush_base_is_subquery_paren (s : AlignedState) (c : Char) :
    (s.push c).base.is_subquery_paren = s.base.is_subquery_paren := rfl

@[simp] theorem apush_base_paren_depth (s : AlignedState) (c : Char) :
    (s.push c).base.paren_depth = s.base.paren_depth := rfl

@[simp] theorem apush_base_inline_paren_depth (s : AlignedState) (c : Char) :
    (s.push c).base.inline_paren_depth = s.base.inline_paren_depth := rfl

@[simp] theorem apush_str_base_is_subquery_paren (s : AlignedState) (t : String) :
    (s.push_str t).base.is_subquery_paren = s.base.is_subquery_paren := rfl

@[simp] theorem apush_str_base_paren_depth (s : AlignedState) (t : String) :
    (s.push_str t).base.paren_depth = s.base.paren_depth := rfl

@[simp] theorem apush_str_base_inline_paren_depth (s : AlignedState) (t : String) :
    (s.push_str t).base.inline_paren_depth = s.base.inline_paren_depth := rfl

@[simp] theorem aset_first_base_is_subquery_paren (s : AlignedState) (v : Bool) :
    (s.set_first v).base.is_subquery_paren = s.base.is_subquery_paren := rfl

@[simp] theorem aset_first_base_paren_depth (s : AlignedState) (v : Bool) :
    (s.set_first v).base.paren_depth = s.base.paren_depth := rfl

@[simp] theorem aset_first_base_inline_paren_depth (s : AlignedState) (v : Bool) :
    (s.set_first v).base.inline_paren_depth = s.base.inline_paren_depth := rfl

@[simp] theorem awrite_padding_base_is_subquery_paren (s : AlignedState) (n : Nat) :
    (s.write_padding n).base.is_subquery_paren = s.base.is_subquery_paren := rfl

@[simp] theorem awrite_padding_base_paren_depth (s : AlignedState) (n : Nat) :
    (s.write_padding n).base.paren_depth = s.base.paren_depth := rfl

@[simp] theorem awrite_padding_base_inline_paren_depth (s : AlignedState) (n : Nat) :
    (s.write_padding n).base.inline_paren_depth = s.base.inline_paren_depth := rfl

/-! ### Paren-state characterization of the engine hooks -/

/-- Fields of the open-paren bookkeeping, bundled for the invariant. -/
def parenFields (b : FormatterBase) : List Bool × Nat × Nat :=
  (b.is_subquery_paren, b.paren_depth, b.inline_paren_depth)

theorem block_try_emit_inline_paren {s : BlockState} {kw : KeywordKind}
    {kw_str : String} {prev : Option FToken} {s2 : BlockState}
    (h : block_try_emit_inline s kw kw_str prev = some s2) :
    parenFields s2.base = parenFields s.base := by
  rw [block_try_emit_inline] at h
  split_ifs at h <;> simp only [Option.some.injEq] at h <;> subst h <;>
    simp [parenFields]

theorem block_emit_clause_content_paren {s : BlockState} {text : String}
    {s2 : BlockState} (h : block_emit_clause_content s text = some s2) :
    parenFields s2.base = parenFields s.base := by
  rw [block_emit_clause_content] at h
  split_ifs at h <;> simp only [Option.some.injEq] at h <;> subst h <;>
    simp [parenFields]

theorem block_format_keyword_paren (opts : FormatOptions) (s : BlockState)
    (kw : KeywordKind) (prev : Option FToken) :
    parenFields (block_format_keyword opts s kw prev).base =
      parenFields s.base := by
  rw [block_format_keyword]
  split_ifs
  · rw [block_format_ddl_keyword]
    repeat' split
    all_goals simp_all [parenFields, apply_ite]
  · rw [block_format_clause_starter]
    cases h : block_try_emit_inline s kw (keyword_str opts kw) prev with
    | some s2 =>
      simp only [h]
      simpa [parenFields] using block_try_emit_inline_paren h
    | none =>
      simp only [h]
      repeat' split
      all_goals simp_all [parenFields, apply_ite]
  · rw [block_format_join_keyword]
    cases h : block_try_emit_inline s .Join (keyword_str opts kw) prev with
    | some s2 =>
      simp only [h]
      simpa [parenFields] using block_try_emit_inline_paren h
    | none =>
      simp only [h]
      repeat' split
      all_goals simp_all [parenFields, apply_ite]
  · rw [block_format_order_modifier]
    cases h : block_try_emit_inline s kw (keyword_str opts kw) prev with
    | some s2 =>
      simp only [h]
      simpa [parenFields] using block_try_emit_inline_paren h
    | none =>
      simp only [h]
      repeat' split
      all_goals simp_all [parenFields, apply_ite]
  · rw [block_format_sub_clause_keyword]
    cases h : block_try_emit_inline s kw (keyword_str opts kw) prev with
    | some s2 =>
      simp only [h]
      simpa [parenFields] using block_try_emit_inline_paren h
    | none =>
      simp only [h]
      repeat' split
      all_goals simp_all [parenFields, apply_ite]
  · rw [block_format_other_keyword]
    cases h : block_try_emit_inline s kw (keyword_str opts kw) prev with
    | some s2 =>
      simp only [h]
      simpa [parenFields] using block_try_emit_inline_paren h
    | none =>
      simp only [h]
      by_cases hd : s.base.prev_was_ddl_starter = true
      · simp [hd, parenFields]
      · simp only [if_neg hd]
        cases h2 : block_emit_clause_content s (keyword_str opts kw) with
        | some s3 =>
          simp only [h2]
          simpa [parenFields] using block_emit_clause_content_paren h2
        | none =>
          simp only [h2]
          repeat' split
          all_goals simp_all [parenFields, apply_ite]

theorem block_format_comma_paren (cs : CommaStyle) (s : BlockState) :
    parenFields (block_format_comma cs s).base = parenFields s.base := by
  unfold block_format_comma
  by_cases hi : s.clear_pending_state.base.is_inline = true
  · simp [hi, parenFields]
  · cases hc : s.clear_pending_state.base.clause_context <;> cases cs <;>
      simp [hi, hc, parenFields]

theorem block_format_semicolon_paren (s : BlockState) :
    parenFields (block_format_semicolon s).base = parenFields s.base := by
  rw [block_format_semicolon]
  simp [parenFields]

theorem block_format_value_paren (s : BlockState) (text : String)
    (prev : Option FToken) (token : FToken) :
    parenFields (block_format_value s text prev token).base =
      parenFields s.base := by
  rw [block_format_value]
  by_cases hi : s.base.is_inline = true
  · simp only [if_pos hi]
    repeat' split
    all_goals simp_all [parenFields, apply_ite]
  · simp only [if_neg hi]
    by_cases hd : s.base.prev_was_ddl_starter = true
    · simp [hd, parenFields]
    · simp only [if_neg hd]
      cases h2 : block_emit_clause_content s text with
      | some s3 =>
        simp only [h2]
        simpa [parenFields] using block_emit_clause_content_paren h2
      | none =>
        simp only [h2]
        repeat' split
        all_goals simp_all [parenFields, apply_ite]

theorem block_format_open_paren_paren (s : BlockState)
    (next prev : Option FToken) :
    (block_format_open_paren s next prev).base.is_subquery_paren.length =
      s.base.is_subquery_paren.length + 1 ∧
    (block_format_open_paren s next prev).base.paren_depth =
      s.base.paren_depth + 1 := by
  rw [block_format_open_paren]
  by_cases hsq : paren_is_subquery next = true
  · simp only [hsq, if_true]
    repeat' split
    all_goals simp_all [apply_ite]
  · have hsq2 : paren_is_subquery next = false := by simpa using hsq
    simp only [hsq2, Bool.false_eq_true, if_false]
    repeat' split
    all_goals simp_all [apply_ite]

theorem block_format_close_paren_paren (s : BlockState) :
    (if s.base.paren_depth = 0 then
      parenFields (block_format_close_paren s).base = parenFields s.base
    else
      (block_format_close_paren s).base.is_subquery_paren =
        s.base.is_subquery_paren.tail ∧
      (block_format_close_paren s).base.paren_depth =
        s.base.paren_depth - 1) := by
  rw [block_format_close_paren]
  by_cases h0 : s.base.paren_depth = 0
  · rw [if_pos h0]
    have h0c : s.clear_pending_state.base.paren_depth = 0 := h0
    rw [if_pos h0c]
    simp [parenFields]
  · rw [if_neg h0]
    have h0c : ¬s.clear_pending_state.base.paren_depth = 0 := h0
    rw [if_neg h0c]
    by_cases hw : s.base.is_subquery_paren.head?.getD false = true
    · simp [hw]
    · simp [hw, apply_ite]

theorem aligned_write_keyword_on_newline_paren (opts : FormatOptions)
    (s : AlignedState) (kw : KeywordKind) :
    parenFields (aligned_write_keyword_on_newline opts s kw).base =
      parenFields s.base := by
  rw [aligned_write_keyword_on_newline]
  repeat' split
  all_goals simp [parenFields]

theorem aligned_format_ddl_keyword_paren (opts : FormatOptions)
    (s : AlignedState) (kw : KeywordKind) :
    parenFields (aligned_format_ddl_keyword opts s kw).base =
      parenFields s.base := by
  rw [aligned_format_ddl_keyword]
  simpa [parenFields] using aligned_write_keyword_on_newline_paren opts s kw

theorem aligned_format_with_keyword_paren (opts : FormatOptions)
    (s : AlignedState) :
    parenFields (aligned_format_with_keyword opts s).base =
      parenFields s.base := by
  rw [aligned_format_with_keyword]
  repeat' split
  all_goals simp [parenFields]

theorem aligned_format_clause_starter_paren (opts : FormatOptions)
    (s : AlignedState) (kw : KeywordKind) :
    parenFields (aligned_format_clause_starter opts s kw).base =
      parenFields s.base := by
  rw [aligned_format_clause_starter]
  by_cases hu : ((kw = KeywordKind.Union || kw = KeywordKind.UnionAll) &&
      !s.base.is_first_token) = true
  · simp only [hu, if_true]
    have h1 := aligned_write_keyword_on_newline_paren opts (s.push '\n') kw
    by_cases hu1 : (kw = KeywordKind.Union || kw = KeywordKind.UnionAll) =
      true
    · simp only [hu1, if_true]
      simp only [parenFields, Prod.mk.injEq] at h1 ⊢
      simp [h1.1, h1.2.1, h1.2.2]
    · have hu1f : (kw = KeywordKind.Union || kw = KeywordKind.UnionAll) =
        false := by simpa using hu1
      simp only [hu1f, Bool.false_eq_true, if_false]
      simp only [parenFields, Prod.mk.injEq] at h1 ⊢
      simp [h1.1, h1.2.1, h1.2.2]
  · have hu2 : ((kw = KeywordKind.Union || kw = KeywordKind.UnionAll) &&
      !s.base.is_first_token) = false := by simpa using hu
    simp only [hu2, Bool.false_eq_true, if_false]
    have h1 := aligned_write_keyword_on_newline_paren opts s kw
    by_cases hu1 : (kw = KeywordKind.Union || kw = KeywordKind.UnionAll) =
      true
    · simp only [hu1, if_true]
      simp only [parenFields, Prod.mk.injEq] at h1 ⊢
      simp [h1.1, h1.2.1, h1.2.2]
    · have hu1f : (kw = KeywordKind.Union || kw = KeywordKind.UnionAll) =
        false := by simpa using hu1
      simp only [hu1f, Bool.false_eq_true, if_false]
      simp only [parenFields, Prod.mk.injEq] at h1 ⊢
      simp [h1.1, h1.2.1, h1.2.2]

theorem aligned_format_join_keyword_paren (opts : FormatOptions)
    (s : AlignedState) (kw : KeywordKind) :
    parenFields (aligned_format_join_keyword opts s kw).base =
      parenFields s.base := by
  rw [aligned_format_join_keyword]
  simpa [parenFields] using aligned_write_keyword_on_newline_paren opts s kw

theorem aligned_format_order_modifier_paren (opts : FormatOptions)
    (s : AlignedState) (kw : KeywordKind) :
    parenFields (aligned_format_order_modifier opts s kw).base =
      parenFields s.base := by
  rw [aligned_format_order_modifier.eq_def]
  have h1 := aligned_write_keyword_on_newline_paren opts s kw
  simp only [parenFields, Prod.mk.injEq] at h1 ⊢
  exact ⟨h1.1, h1.2.1, h1.2.2⟩

theorem aligned_format_sub_clause_paren (opts : FormatOptions)
    (s : AlignedState) (kw : KeywordKind) (prev : Option FToken) :
    parenFields (aligned_format_sub_clause opts s kw prev).base =
      parenFields s.base := by
  rw [aligned_format_sub_clause]
  split_ifs
  · repeat' split
    all_goals simp [parenFields]
  · repeat' split
    all_goals simp [parenFields]
  · exact aligned_write_keyword_on_newline_paren opts s kw

theorem aligned_format_other_keyword_paren (s : AlignedState)
    (kw : KeywordKind) (kw_str : String) (prev : Option FToken) :
    parenFields (aligned_format_other_keyword s kw kw_str prev).base =
      parenFields s.base := by
  rw [aligned_format_other_keyword]
  repeat' split
  all_goals simp_all [parenFields, apply_ite]

theorem aligned_format_keyword_paren (opts : FormatOptions)
    (s : AlignedState) (kw : KeywordKind) (prev : Option FToken) :
    parenFields (aligned_format_keyword opts s kw prev).base =
      parenFields s.base := by
  rw [aligned_format_keyword]
  split_ifs
  · simp [parenFields]
  · simp [parenFields]
  · exact aligned_format_ddl_keyword_paren opts s kw
  · exact aligned_format_with_keyword_paren opts s
  · exact aligned_format_clause_starter_paren opts s kw
  · exact aligned_format_join_keyword_paren opts s kw
  · exact aligned_format_order_modifier_paren opts s kw
  · exact aligned_format_sub_clause_paren opts s kw prev
  · exact aligned_format_other_keyword_paren s kw (keyword_str opts kw) prev

theorem aligned_format_comma_paren (s : AlignedState) :
    parenFields (aligned_format_comma s).base = parenFields s.base := by
  rw [aligned_format_comma]
  by_cases hi : s.base.is_inline = true
  · simp [hi, parenFields]
  · cases hc : s.base.clause_context <;>
      simp [hi, hc, parenFields, aligned_write_leading_comma]

theorem aligned_format_semicolon_paren (s : AlignedState) :
    parenFields (aligned_format_semicolon s).base = parenFields s.base := by
  rw [aligned_format_semicolon]
  simp [parenFields]

theorem aligned_format_value_paren (s : AlignedState) (text : String)
    (prev : Option FToken) (token : FToken) :
    parenFields (aligned_format_value s text prev token).base =
      parenFields s.base := by
  rw [aligned_format_value]
  repeat' split
  all_goals simp_all [parenFields, apply_ite]

theorem aligned_format_open_paren_paren (s : AlignedState)
    (next prev : Option FToken) :
    (aligned_format_open_paren s next prev).base.is_subquery_paren.length =
      s.base.is_subquery_paren.length + 1 ∧
    (aligned_format_open_paren s next prev).base.paren_depth =
      s.base.paren_depth + 1 := by
  rw [aligned_format_open_paren]
  by_cases hsq : paren_is_subquery next = true
  · simp only [hsq, if_true]
    repeat' split
    all_goals simp_all [apply_ite]
  · have hsq2 : paren_is_subquery next = false := by simpa using hsq
    simp only [hsq2, Bool.false_eq_true, if_false]
    repeat' split
    all_goals simp_all [apply_ite]

theorem aligned_format_close_paren_paren (s : AlignedState) :
    (if s.base.paren_depth = 0 then
      parenFields (aligned_format_close_paren s).base = parenFields s.base
    else
      (aligned_format_close_paren s).base.is_subquery_paren =
        s.base.is_subquery_paren.tail ∧
      (aligned_format_close_paren s).base.paren_depth =
        s.base.paren_depth - 1) := by
  rw [aligned_format_close_paren]
  by_cases h0 : s.base.paren_depth = 0
  · rw [if_pos h0, if_pos h0]
    simp [parenFields]
  · rw [if_neg h0, if_neg h0]
    by_cases hw : s.base.is_subquery_paren.head?.getD false = true
    · simp [hw, apply_ite]
    · simp [hw, apply_ite]

@[simp] theorem FormatterBase.push_is_subquery_paren (b : FormatterBase)
    (c : Char) : (b.push c).is_subquery_paren = b.is_subquery_paren := rfl

@[simp] theorem FormatterBase.push_paren_depth (b : FormatterBase)
    (c : Char) : (b.push c).paren_depth = b.paren_depth := rfl

@[simp] theorem FormatterBase.push_inline_paren_depth (b : FormatterBase)
    (c : Char) : (b.push c).inline_paren_depth = b.inline_paren_depth := rfl

@[simp] theorem FormatterBase.push_str_is_subquery_paren (b : FormatterBase)
    (t : String) : (b.push_str t).is_subquery_paren = b.is_subquery_paren :=
  rfl

@[simp] theorem FormatterBase.push_str_paren_depth (b : FormatterBase)
    (t : String) : (b.push_str t).paren_depth = b.paren_depth := rfl

@[simp] theorem FormatterBase.push_str_inline_paren_depth
    (b : FormatterBase) (t : String) :
    (b.push_str t).inline_paren_depth = b.inline_paren_depth := rfl

theorem StackInv.of_parenFields {b b2 : FormatterBase}
    (hp : parenFields b2 = parenFields b) (h : StackInv b) : StackInv b2 := by
  unfold StackInv at h ⊢
  unfold parenFields at hp
  simp only [Prod.mk.injEq] at hp
  rw [hp.1, hp.2.1]
  exact h

theorem drive_step_block_inv (cs : CommaStyle) (opts : FormatOptions)
    (s : BlockState) (t : FToken) (prev next : Option FToken)
    (h : StackInv s.base) :
    StackInv (drive_step (blockEngine cs opts) s t prev next).base := by
  cases t with
  | Keyword kw =>
    rw [drive_step]
    split_ifs
    · exact h.of_parenFields (block_format_value_paren ..)
    · exact h.of_parenFields (block_format_keyword_paren ..)
  | Comma => exact h.of_parenFields (block_format_comma_paren ..)
  | OpenParen =>
    show StackInv (block_format_open_paren s next prev).base
    have h2 := block_format_open_paren_paren s next prev
    unfold StackInv at h ⊢
    rw [h2.1, h2.2, h]
  | CloseParen =>
    show StackInv (block_format_close_paren s).base
    have h2 := block_format_close_paren_paren s
    by_cases h0 : s.base.paren_depth = 0
    · rw [if_pos h0] at h2
      exact h.of_parenFields h2
    · rw [if_neg h0] at h2
      unfold StackInv at h ⊢
      rw [h2.1, h2.2, List.length_tail, h]
  | Semicolon => exact h.of_parenFields (block_format_semicolon_paren ..)
  | LineComment text =>
    unfold StackInv at h ⊢
    rw [drive_step]
    split_ifs <;> simpa using h
  | BlockComment text =>
    unfold StackInv at h ⊢
    rw [drive_step]
    split_ifs <;> simpa using h
  | Dot =>
    unfold StackInv at h ⊢
    simpa [drive_step] using h
  | Identifier name => exact h.of_parenFields (block_format_value_paren ..)
  | QuotedIdentifier name =>
    exact h.of_parenFields (block_format_value_paren ..)
  | StringLiteral v => exact h.of_parenFields (block_format_value_paren ..)
  | NumberLiteral v => exact h.of_parenFields (block_format_value_paren ..)
  | Operator op => exact h.of_parenFields (block_format_value_paren ..)
  | TemplateVariable c =>
    exact h.of_parenFields (block_format_value_paren ..)
  | Whitespace w => exact h

theorem drive_step_aligned_inv (opts : FormatOptions) (s : AlignedState)
    (t : FToken) (prev next : Option FToken) (h : StackInv s.base) :
    StackInv (drive_step (alignedEngine opts) s t prev next).base := by
  cases t with
  | Keyword kw =>
    rw [drive_step]
    split_ifs
    · exact h.of_parenFields (aligned_format_value_paren ..)
    · exact h.of_parenFields (aligned_format_keyword_paren ..)
  | Comma => exact h.of_parenFields (aligned_format_comma_paren ..)
  | OpenParen =>
    show StackInv (aligned_format_open_paren s next prev).base
    have h2 := aligned_format_open_paren_paren s next prev
    unfold StackInv at h ⊢
    rw [h2.1, h2.2, h]
  | CloseParen =>
    show StackInv (aligned_format_close_paren s).base
    have h2 := aligned_format_close_paren_paren s
    by_cases h0 : s.base.paren_depth = 0
    · rw [if_pos h0] at h2
      exact h.of_parenFields h2
    · rw [if_neg h0] at h2
      unfold StackInv at h ⊢
      rw [h2.1, h2.2, List.length_tail, h]
  | Semicolon => exact h.of_parenFields (aligned_format_semicolon_paren ..)
  | LineComment text =>
    unfold StackInv at h ⊢
    rw [drive_step]
    split_ifs <;> simpa using h
  | BlockComment text =>
    unfold StackInv at h ⊢
    rw [drive_step]
    split_ifs <;> simpa using h
  | Dot =>
    unfold StackInv at h ⊢
    simpa [drive_step] using h
  | Identifier name =>
    exact h.of_parenFields (aligned_format_value_paren ..)
  | QuotedIdentifier name =>
    exact h.of_parenFields (aligned_format_value_paren ..)
  | StringLiteral v => exact h.of_parenFields (aligned_format_value_paren ..)
  | NumberLiteral v => exact h.of_parenFields (aligned_format_value_paren ..)
  | Operator op => exact h.of_parenFields (aligned_format_value_paren ..)
  | TemplateVariable c =>
    exact h.of_parenFields (aligned_format_value_paren ..)
  | Whitespace w => exact h

theorem drive_block_inv (cs : CommaStyle) (opts : FormatOptions) :
    ∀ (tokens : List FToken) (s : BlockState) (prev : Option FToken),
      StackInv s.base →
      StackInv (drive (blockEngine cs opts) s prev tokens).base := by
  intro tokens
  induction tokens with
  | nil => intro s prev h; exact h
  | cons t rest ih =>
    intro s prev h
    rw [drive]
    exact ih _ _ (drive_step_block_inv cs opts s t prev rest.head? h)

theorem drive_aligned_inv (opts : FormatOptions) :
    ∀ (tokens : List FToken) (s : AlignedState) (prev : Option FToken),
      StackInv s.base →
      StackInv (drive (alignedEngine opts) s prev tokens).base := by
  intro tokens
  induction tokens with
  | nil => intro s prev h; exact h
  | cons t rest ih =>
    intro s prev h
    rw [drive]
    exact ih _ _ (drive_step_aligned_inv opts s t prev rest.head? h)


/-! ## Whitespace-trimming facts (used for claim C3) -/

theorem dropWhile_ws_idem (l : List Char) :
    (l.dropWhile rust_char_is_whitespace).dropWhile rust_char_is_whitespace =
      l.dropWhile rust_char_is_whitespace := by
  induction l with
  | nil => rfl
  | cons a t ih =>
    by_cases hp : rust_char_is_whitespace a = true
    · rw [List.dropWhile_cons, if_pos hp, ih]
    · rw [List.dropWhile_cons, if_neg hp, List.dropWhile_cons, if_neg hp]

theorem head_dropWhile_ws_false (l : List Char) :
    ∀ c, (l.dropWhile rust_char_is_whitespace).head? = some c →
      rust_char_is_whitespace c = false := by
  induction l with
  | nil => intro c h; simp at h
  | cons a t ih =>
    intro c h
    by_cases hp : rust_char_is_whitespace a = true
    · rw [List.dropWhile_cons, if_pos hp] at h
      exact ih c h
    · rw [List.dropWhile_cons, if_neg hp] at h
      have hac : a = c := by simpa using h
      subst hac
      simpa using hp

theorem rust_trim_end_idem (l : List Char) :
    rust_trim_end (rust_trim_end l) = rust_trim_end l := by
  simp [rust_trim_end, dropWhile_ws_idem]

theorem rust_trim_end_last_not_ws (l : List Char) :
    ∀ c, (rust_trim_end l).getLast? = some c →
      rust_char_is_whitespace c = false := by
  intro c h
  rw [rust_trim_end, List.getLast?_reverse] at h
  exact head_dropWhile_ws_false l.reverse c h

theorem format_tokens_is_trimmed (tokens : List FToken)
    (opts : FormatOptions) :
    rust_trim_end (format_tokens tokens opts) = format_tokens tokens opts := by
  obtain ⟨uc, st⟩ := opts
  rw [format_tokens]
  by_cases h : tokens = []
  · rw [if_pos h]
    rfl
  · rw [if_neg h]
    cases st <;> exact rust_trim_end_idem _

/-! ## All-whitespace inputs tokenize to at most one token (claim C8) -/

theorem tokenizeSpansGo_nil_input (n : Nat) : tokenizeSpansGo n [] = [] := by
  cases n with
  | zero => rfl
  | succ m => rfl

theorem all_ws_takeWhile {l : List Nat} (h : ∀ b ∈ l, isWsB b = true) :
    l.takeWhile isWsB = l ∧ l.dropWhile isWsB = [] := by
  induction l with
  | nil => exact ⟨rfl, rfl⟩
  | cons a t ih =>
    have ha : isWsB a = true := h a (List.mem_cons_self a t)
    have ht := ih (fun b hb => h b (List.mem_cons_of_mem a hb))
    refine ⟨?_, ?_⟩
    · rw [List.takeWhile_cons, if_pos ha, ht.1]
    · rw [List.dropWhile_cons, if_pos ha, ht.2]

theorem tokenize_all_ws {l : List Nat} (h : ∀ b ∈ l, isWsB b = true) :
    tokenize l = [] ∨ tokenize l = [.Whitespace l] := by
  cases l with
  | nil => exact Or.inl rfl
  | cons a t =>
    right
    have ha : isWsB a = true := h a (List.mem_cons_self a t)
    have hts := all_ws_takeWhile h
    have hnt : next_token (a :: t) =
        some (.Whitespace (a :: t), a :: t, []) := by
      rw [next_token, if_pos ha, hts.1, hts.2]
    rw [tokenize, tokenizeSpans]
    show (tokenizeSpansGo (t.length + 1) (a :: t)).map Prod.fst = _
    rw [tokenizeSpansGo, hnt]
    simp [tokenizeSpansGo_nil_input]

/-! ## Output shape of the aligned keyword writer (claim C7) -/

theorem aligned_write_keyword_output (opts : FormatOptions)
    (s : AlignedState) (kw : KeywordKind) :
    (aligned_write_keyword_on_newline opts s kw).base.output =
      s.base.output ++
        (if s.base.is_first_token then [] else ['\n']) ++
        List.replicate (keyword_padding s.base_col kw) ' ' ++
        (keyword_str opts kw).data := by
  by_cases hf : s.base.is_first_token = true
  · simp [aligned_write_keyword_on_newline, AlignedState.push,
      AlignedState.push_str, AlignedState.write_padding, AlignedState.set_first,
      FormatterBase.push, FormatterBase.push_str, hf]
  · simp only [Bool.not_eq_true] at hf
    simp [aligned_write_keyword_on_newline, AlignedState.push,
      AlignedState.push_str, AlignedState.write_padding, AlignedState.set_first,
      FormatterBase.push, FormatterBase.push_str, hf]

/-! ## The ten claims -/

/-- C1: lossless lexing.  For every byte-level input, concatenating the
spans the lexer consumes for the successive tokens of `tokenize input`
(delimiters such as quotes, comment markers and template braces included)
reconstructs the input exactly; and the tokens of those spans are exactly
`tokenize input`. -/
theorem tokenize_spans_reconstruct (input : List Nat) :
    ((tokenizeSpans input).map Prod.snd).flatten = input ∧
    (tokenizeSpans input).map Prod.fst = tokenize input :=
  ⟨tokenizeSpansGo_join input.length input le_rfl, rfl⟩

/-- C2: refuted — `tokenize` is not total on general UTF-8 input.  On the
two-byte UTF-8 input `0xC3 0xA9` (the character é), the byte-level scan
falls through to the unknown-byte arm and cuts a one-byte span at
position 1, which is not a character boundary (byte `0xA9` is a
continuation byte).  The corresponding Rust code builds that span with
`&self.input[self.pos..self.pos + 1]` (`Lexer::slice`), and slicing a
`&str` at a non-boundary index panics, so `tokenize` fails on this input
instead of degrading it to Operator tokens. -/
theorem tokenize_nonascii_cut :
    tokenizeSpans [195, 169] =
      [(.Operator [195], [195]), (.Operator [169], [169])] ∧
    rust_is_char_boundary [195, 169] 1 = false :=
  ⟨rfl, rfl⟩

/-- C3: corrected.  The finalizers only trim the end of the whole output
(`trim_end` in `SqlFormatter::finalize_output` and
`AlignedFormatter::finalize_output`), so the formatted output as a whole
never ends in trailing whitespace — in particular it never ends with a
newline — for every token stream and every option combination.  The
original per-line claim is false: `trailing_ws_line_cex` exhibits an
interior output line consisting of four spaces. -/
theorem output_end_trimmed (tokens : List FToken) (opts : FormatOptions) :
    rust_trim_end (format_tokens tokens opts) = format_tokens tokens opts ∧
    (∀ c, (format_tokens tokens opts).getLast? = some c →
      rust_char_is_whitespace c = false) ∧
    (format_tokens tokens opts).getLast? ≠ some '\n' := by
  refine ⟨format_tokens_is_trimmed tokens opts, ?_, ?_⟩
  · intro c h
    rw [← format_tokens_is_trimmed tokens opts] at h
    exact rust_trim_end_last_not_ws _ c h
  · intro h
    rw [← format_tokens_is_trimmed tokens opts] at h
    exact absurd (rust_trim_end_last_not_ws _ _ h) (by decide)

/-- The input `select , from t` (basic style, default options) formats to
`SELECT,\n    \nFROM\n    t`: its second line is four spaces, which ends
with trailing whitespace, refuting the per-line half of claim C3. -/
theorem trailing_ws_line_cex :
    lines_rust (format_sql (asciiBytes ("select , from t"))
        FormatOptions.default) =
      [("SELECT,").data, ("    ").data, ("FROM").data, ("    t").data] ∧
    rust_trim_end (("    ").data) ≠ ("    ").data :=
  ⟨rfl, by decide⟩

/-- C4: the paren-stack invariant.  In the block-indented engines (basic
and dataops from the sources, and the spec-modelled streamline engine,
all instances of `blockEngine`) and in the column-aligned engine, the
initial state satisfies `StackInv` (subquery-marker stack length equals
the open-paren depth counter), every run of the driver loop preserves
`StackInv`, and a close paren arriving at positive depth pops exactly one
marker while decrementing the depth by one. -/
theorem paren_stack_invariant (cs : CommaStyle) (opts : FormatOptions)
    (tokens : List FToken) (prev : Option FToken)
    (sb : BlockState) (sa : AlignedState) :
    StackInv BlockState.new.base ∧
    StackInv AlignedState.new.base ∧
    (StackInv sb.base →
      StackInv (drive (blockEngine cs opts) sb prev tokens).base) ∧
    (StackInv sa.base →
      StackInv (drive (alignedEngine opts) sa prev tokens).base) ∧
    (sb.base.paren_depth ≠ 0 →
      (block_format_close_paren sb).base.is_subquery_paren =
        sb.base.is_subquery_paren.tail ∧
      (block_format_close_paren sb).base.paren_depth =
        sb.base.paren_depth - 1) ∧
    (sa.base.paren_depth ≠ 0 →
      (aligned_format_close_paren sa).base.is_subquery_paren =
        sa.base.is_subquery_paren.tail ∧
      (aligned_format_close_paren sa).base.paren_depth =
        sa.base.paren_depth - 1) := by
  refine ⟨rfl, rfl,
    fun h => drive_block_inv cs opts tokens sb prev h,
    fun h => drive_aligned_inv opts tokens sa prev h,
    fun h0 => ?_, fun h0 => ?_⟩
  · have hc := block_format_close_paren_paren sb
    rw [if_neg h0] at hc
    exact hc
  · have hc := aligned_format_close_paren_paren sa
    rw [if_neg h0] at hc
    exact hc

/-- Witness for C4 at a concrete run: a SELECT with one subquery paren
pair, driven through both engine families from the initial state. -/
theorem paren_stack_invariant_witness :
    StackInv (drive (blockEngine CommaStyle.Trailing FormatOptions.default)
      BlockState.new none
      [.Keyword .Select, .OpenParen, .Keyword .Select, .CloseParen]).base ∧
    StackInv (drive (alignedEngine FormatOptions.default)
      AlignedState.new none
      [.Keyword .Select, .OpenParen, .Keyword .Select, .CloseParen]).base :=
  ⟨(paren_stack_invariant CommaStyle.Trailing FormatOptions.default
      [.Keyword .Select, .OpenParen, .Keyword .Select, .CloseParen] none
      BlockState.new AlignedState.new).2.2.1 (by decide),
   (paren_stack_invariant CommaStyle.Trailing FormatOptions.default
      [.Keyword .Select, .OpenParen, .Keyword .Select, .CloseParen] none
      BlockState.new AlignedState.new).2.2.2.1 (by decide)⟩

/-- C5: a semicolon fully resets the per-statement layout state — clause
context, indentation baseline (`indent_depth` in the block engines,
`base_col` in the aligned engine), DDL-starter flag and first-token flag
— and leaves the open-paren state (paren depth, subquery-marker stack,
inline-paren counter) unchanged, in the block-indented engines (basic,
dataops, spec-modelled streamline) and in the column-aligned engine. -/
theorem semicolon_resets_statement_state (sb : BlockState)
    (sa : AlignedState) :
    ((block_format_semicolon sb).base.clause_context = .None ∧
     (block_format_semicolon sb).indent_depth = 0 ∧
     (block_format_semicolon sb).base.prev_was_ddl_starter = false ∧
     (block_format_semicolon sb).base.is_first_token = true ∧
     (block_format_semicolon sb).base.paren_depth = sb.base.paren_depth ∧
     (block_format_semicolon sb).base.is_subquery_paren =
       sb.base.is_subquery_paren ∧
     (block_format_semicolon sb).base.inline_paren_depth =
       sb.base.inline_paren_depth) ∧
    ((aligned_format_semicolon sa).base.clause_context = .None ∧
     (aligned_format_semicolon sa).base_col = 0 ∧
     (aligned_format_semicolon sa).base.prev_was_ddl_starter = false ∧
     (aligned_format_semicolon sa).base.is_first_token = true ∧
     (aligned_format_semicolon sa).base.paren_depth = sa.base.paren_depth ∧
     (aligned_format_semicolon sa).base.is_subquery_paren =
       sa.base.is_subquery_paren ∧
     (aligned_format_semicolon sa).base.inline_paren_depth =
       sa.base.inline_paren_depth) :=
  ⟨⟨rfl, rfl, rfl, rfl, rfl, rfl, rfl⟩, ⟨rfl, rfl, rfl, rfl, rfl, rfl, rfl⟩⟩

/-- C6: corrected.  Under the default block-indented style, the subquery
input formats with the inner SELECT one indentation level (four spaces)
deeper than the outer WHERE, as claimed; but the closing paren is written
at the subquery body's base indentation (one level deeper than WHERE, at
column 4), not at the outer clause's base indentation (column 0).  The
full output is pinned exactly. -/
theorem subquery_nesting_output :
    format_sql (asciiBytes
        ("select id from users where id in (select user_id from orders)"))
      FormatOptions.default =
      ("SELECT\n    id\nFROM\n    users\nWHERE\n    id IN (\n    SELECT\n        user_id\n    FROM\n        orders\n    )").data ∧
    (lines_rust (("SELECT\n    id\nFROM\n    users\nWHERE\n    id IN (\n    SELECT\n        user_id\n    FROM\n        orders\n    )").data)).getD 4 [] =
      ("WHERE").data ∧
    (lines_rust (("SELECT\n    id\nFROM\n    users\nWHERE\n    id IN (\n    SELECT\n        user_id\n    FROM\n        orders\n    )").data)).getD 6 [] =
      ("    SELECT").data ∧
    (lines_rust (("SELECT\n    id\nFROM\n    users\nWHERE\n    id IN (\n    SELECT\n        user_id\n    FROM\n        orders\n    )").data)).getD 10 [] =
      ("    )").data ∧
    lineIndent (("    SELECT").data) = lineIndent (("WHERE").data) + 4 ∧
    lineIndent (("    )").data) = lineIndent (("WHERE").data) + 4 :=
  ⟨rfl, by decide, by decide, by decide, by decide, by decide⟩

/-- The closing paren of the C6 subquery lands on the last output line as
`    )` — indentation 4, one level deeper than the outer WHERE at
indentation 0 — refuting the half of C6 that places it at the outer
clause's base indentation. -/
theorem subquery_close_paren_cex :
    (lines_rust (format_sql (asciiBytes
        ("select id from users where id in (select user_id from orders)"))
      FormatOptions.default)).getLast? = some (("    )").data) ∧
    lineIndent (("    )").data) = 4 ∧
    lineIndent (("WHERE").data) = 0 ∧ (4 : Nat) ≠ 0 :=
  ⟨rfl, by decide, by decide, by decide⟩

/-- C7: corrected.  In the column-aligned style a keyword written at the
start of a line is preceded by `keyword_padding` spaces.  For join
keywords the last character indeed lands at column `base_col + 11`, and
for other keywords of length at most six it lands at `base_col + 6`; but
for a non-join keyword longer than six characters the padding itself is
the fixed quantity (`base_col + 1` spaces before the keyword), so its
last character lands at `base_col + 1 +` the keyword length, which varies
with the keyword — not at the fixed column `base_col + 1` the claim
states.  The writer lays out exactly padding-then-keyword. -/
theorem keyword_padding_columns (opts : FormatOptions) (s : AlignedState)
    (base_col : Nat) (kw : KeywordKind) :
    (aligned_write_keyword_on_newline opts s kw).base.output =
      s.base.output ++
        (if s.base.is_first_token then [] else ['\n']) ++
        List.replicate (keyword_padding s.base_col kw) ' ' ++
        (keyword_str opts kw).data ∧
    (kw.is_join_keyword = true →
      keyword_padding base_col kw + kw.as_str.length = base_col + 11) ∧
    (kw.is_join_keyword = false → kw.as_str.length ≤ 6 →
      keyword_padding base_col kw + kw.as_str.length = base_col + 6) ∧
    (kw.is_join_keyword = false → 6 < kw.as_str.length →
      keyword_padding base_col kw = base_col + 1) := by
  refine ⟨aligned_write_keyword_output opts s kw,
    fun hj => ?_, fun hj h6 => ?_, fun hj h6 => ?_⟩
  · have hlen : kw.as_str.length ≤ 11 := by
      revert hj
      cases kw <;> decide
    simp only [keyword_padding, hj, if_true]
    omega
  · simp only [keyword_padding, hj, Bool.false_eq_true, if_false]
    rw [if_neg (by omega)]
    omega
  · simp only [keyword_padding, hj, Bool.false_eq_true, if_false]
    rw [if_pos h6]

/-- Witness for C7 at concrete keywords: LEFT JOIN ends at column 11,
FROM ends at column 6, and RETURNING gets the fixed one-space padding. -/
theorem keyword_padding_columns_witness :
    (keyword_padding 0 .LeftJoin +
      (KeywordKind.as_str .LeftJoin).length = 0 + 11) ∧
    (keyword_padding 0 .From + (KeywordKind.as_str .From).length = 0 + 6) ∧
    (keyword_padding 0 .Returning = 0 + 1) :=
  ⟨(keyword_padding_columns FormatOptions.default AlignedState.new
      0 .LeftJoin).2.1 (by decide),
   (keyword_padding_columns FormatOptions.default AlignedState.new
      0 .From).2.2.1 (by decide) (by decide),
   (keyword_padding_columns FormatOptions.default AlignedState.new
      0 .Returning).2.2.2 (by decide) (by decide)⟩

/-- The fixed-column claim of C7 fails for keywords longer than six
characters: the non-join keyword RETURNING (length 9) written at
`base_col = 0` ends at column 10, not at the claimed fixed column
`base_col + 1 = 1`; and BETWEEN (length 7) ends at column 8, so the end
column is not fixed across such keywords at all. -/
theorem keyword_padding_cex :
    KeywordKind.is_join_keyword .Returning = false ∧
    6 < (KeywordKind.as_str .Returning).length ∧
    keyword_padding 0 .Returning +
      (KeywordKind.as_str .Returning).length = 10 ∧
    (10 : Nat) ≠ 0 + 1 ∧
    KeywordKind.is_join_keyword .Between = false ∧
    6 < (KeywordKind.as_str .Between).length ∧
    keyword_padding 0 .Between + (KeywordKind.as_str .Between).length = 8 ∧
    (aligned_write_keyword_on_newline FormatOptions.default
      AlignedState.new .Returning).base.output = (" RETURNING").data :=
  ⟨by decide, by decide, by decide, by decide, by decide, by decide,
   by decide, rfl⟩

/-- C8: an input that is empty or all whitespace formats to the empty
output under every style (basic, dataops, aligned from the sources, and
the spec-modelled streamline) and every casing option; the model is total,
so no error is possible. -/
theorem blank_input_empty_output (input : List Nat)
    (h : ∀ b ∈ input, isWsB b = true) (opts : FormatOptions) :
    format_sql input opts = [] := by
  rw [format_sql]
  rcases tokenize_all_ws h with he | he <;> rw [he]
  · rfl
  · obtain ⟨uc, st⟩ := opts
    cases st <;> rfl

/-- Witness for C8: the concrete blank input of two spaces, a newline and
a space formats to the empty output. -/
theorem blank_input_empty_output_witness :
    format_sql (asciiBytes ("  \n ")) FormatOptions.default = [] :=
  blank_input_empty_output (asciiBytes ("  \n ")) (by decide)
    FormatOptions.default

/-- C9: determinism.  The whole pipeline is modelled by the pure function
`format_sql` (and each engine by pure state-transition functions), so
formatting the same input bytes with the same options twice yields
syntactically identical output. -/
theorem format_deterministic (input : List Nat) (opts : FormatOptions) :
    format_sql input opts = format_sql input opts := rfl

/-- C10: closing a subquery paren in the column-aligned engine.  At
positive depth with a subquery marker on top of the stack and saved pair
`(b, c)` on top of the base stack, the close writes a newline, then `b`
spaces when the saved clause context is Cte or From and `b + 2` spaces
otherwise, then the closing paren; it restores `base_col` to `b` and the
clause context to `c`, pops both stacks, and decrements the depth. -/
theorem aligned_close_paren_restores (s : AlignedState) (b : Nat)
    (c : ClauseContext) (rest : List Bool)
    (bs : List (Nat × ClauseContext))
    (hd : s.base.paren_depth ≠ 0)
    (hsub : s.base.is_subquery_paren = true :: rest)
    (hstack : s.base_stack = (b, c) :: bs) :
    (aligned_format_close_paren s).base.output =
      s.base.output ++ '\n' ::
        (List.replicate (if c = .Cte ∨ c = .From then b else b + 2) ' ' ++
          [')']) ∧
    (aligned_format_close_paren s).base_col = b ∧
    (aligned_format_close_paren s).base.clause_context = c ∧
    (aligned_format_close_paren s).base_stack = bs ∧
    (aligned_format_close_paren s).base.is_subquery_paren = rest ∧
    (aligned_format_close_paren s).base.paren_depth =
      s.base.paren_depth - 1 := by
  rw [aligned_format_close_paren, if_neg hd]
  simp only [hsub, hstack, List.headD_cons, List.tail_cons, if_true]
  by_cases hc : c = ClauseContext.Cte ∨ c = ClauseContext.From
  · rw [if_pos hc, if_pos hc]
    simp [AlignedState.push, AlignedState.write_padding,
      AlignedState.set_first, FormatterBase.push, hsub]
  · rw [if_neg hc, if_neg hc]
    simp [AlignedState.push, AlignedState.write_padding,
      AlignedState.set_first, FormatterBase.push, hsub]

/-- Witness for C10 at a concrete aligned state: depth 1, a subquery
marker on the stack, saved pair (1, From). -/
theorem aligned_close_paren_restores_witness :
    (aligned_format_close_paren
      ⟨⟨1, [true], 0, ClauseContext.Where, false, false, []⟩, 3,
        [(1, ClauseContext.From)], 0, false, false⟩).base_col = 1 ∧
    (aligned_format_close_paren
      ⟨⟨1, [true], 0, ClauseContext.Where, false, false, []⟩, 3,
        [(1, ClauseContext.From)], 0, false, false⟩).base.clause_context =
      ClauseContext.From ∧
    (aligned_format_close_paren
      ⟨⟨1, [true], 0, ClauseContext.Where, false, false, []⟩, 3,
        [(1, ClauseContext.From)], 0, false, false⟩).base.paren_depth =
      1 - 1 :=
  ⟨(aligned_close_paren_restores
      ⟨⟨1, [true], 0, ClauseContext.Where, false, false, []⟩, 3,
        [(1, ClauseContext.From)], 0, false, false⟩ 1 ClauseContext.From
      [] [] (by decide) rfl rfl).2.1,
   (aligned_close_paren_restores
      ⟨⟨1, [true], 0, ClauseContext.Where, false, false, []⟩, 3,
        [(1, ClauseContext.From)], 0, false, false⟩ 1 ClauseContext.From
      [] [] (by decide) rfl rfl).2.2.1,
   (aligned_close_paren_restores
      ⟨⟨1, [true], 0, ClauseContext.Where, false, false, []⟩, 3,
        [(1, ClauseContext.From)], 0, false, false⟩ 1 ClauseContext.From
      [] [] (by decide) rfl rfl).2.2.2.2.2⟩


end RsSqlIndent
